import Mathlib

/-!
# SSB-Spoofer: capture/search/spoof pipeline of `src/main.cpp`

A shallow embedding of `scan_for_ssb`, `transmit_spoofed_ssb` and the pipeline part of `main`.

Conventions of the embedding.

* The radio abstraction (`RfHandler`) and the signal engine (`SsbProcessor`) are external: the
  engine is a record of arbitrary functions, the radio is described by the values its calls
  return.  Every call the controllers make to either of them is recorded, in program order, in
  a trace of `Call`s.
* A loop consumes one *event* per iteration: the value of the global flag `running` read by the
  loop condition together with the values returned by the calls of that iteration.  A finite
  list of events is a finite prefix of a run; when the events are used up before the loop has
  exited, the function has no return value yet (`none`).
* `uint32_t` arithmetic is `Nat` arithmetic modulo `2 ^ 32`; the `int` burst counter is an
  `Int` whose increment wraps at `INT_MAX`, where C++ leaves it undefined.
* `double` quantities of the clock and the configuration are rationals (`ℚ`).  The `float`
  arithmetic on the waveform samples is a record of arbitrary operations (`FloatArith`), of
  which no law is assumed.
* Console output and the optional raw-sample file sink have no effect on control flow and are
  not part of the embedding.
-/

namespace SsbSpoofer

/-! ## Configuration (`hdr/config.h`) -/

/-- RF configuration parameters (`struct RfConfig`). -/
structure RfConfig where
  device_name : String
  device_args : String
  tx_freq_hz : ℚ
  rx_freq_hz : ℚ
  srate_hz : ℚ
  tx_gain_db : ℚ
  rx_gain_db : ℚ

/-- SSB configuration parameters (`struct SsbConfig`). -/
structure SsbConfig where
  pattern : String
  scs_khz : Nat
  periodicity_ms : Nat
  f_offset_hz : ℚ
  beta_pss : ℚ
  beta_sss : ℚ
  beta_pbch : ℚ
  beta_pbch_dmrs : ℚ

/-- Attack configuration parameters (`struct AttackConfig`). -/
structure AttackConfig where
  target_pci : Nat
  scan_for_target : Bool
  modify_corset0_idx : Bool
  modify_ss0_idx : Bool
  modify_cell_barred : Bool
  corset0_idx_value : Nat
  ss0_idx_value : Nat
  cell_barred_value : Bool
  tx_power_db : ℚ
  continuous_tx : Bool

/-- Operational parameters (`struct OperationalConfig`). -/
structure OperationalConfig where
  scan_duration_sec : ℚ
  log_level : String
  log_file : String

/-- Complete configuration structure (`struct Config`). -/
structure Config where
  rf : RfConfig
  ssb : SsbConfig
  attack : AttackConfig
  operation : OperationalConfig

/-! ## Data exchanged with the signal engine -/

/-- Modelled from the spec: the decoded system-information message `srsran_mib_nr_t`, whose
declaration is not in the repository sources.  The fields are the frame-timing bit `hrf`
read by `transmit_spoofed_ssb` and the three fields the attack toggles name. -/
structure srsran_mib_nr_t where
  hrf : Bool
  coreset0_idx : Nat
  ss0_idx : Nat
  cell_barred : Bool

/-- Modelled from the spec: the detection result `SsbSearchResult` of `ssb_processor.h`, which
is not in the repository sources.  The fields are the ones `main.cpp` reads. -/
structure SsbSearchResult where
  found : Bool
  pci : Nat
  ssb_idx : Nat
  snr_db : ℚ
  rsrp_dbm : ℚ
  mib : srsran_mib_nr_t

/-- Modelled from the spec: the call contract of `SsbProcessor` (`ssb_processor.h` is not in
the repository sources).  `S` is the sample type and `P` the encoded message type
`srsran_pbch_msg_nr_t`.  `modify_mib` returns the message it leaves in its by-reference
argument and its boolean; `encode_mib` returns the encoded message or fails; `generate_ssb`
returns the contents it leaves in the transmit buffer it is handed and its sample count. -/
structure SsbProcessor (S P : Type) where
  scan : List S → Nat → Option Nat → SsbSearchResult
  modify_mib : srsran_mib_nr_t → AttackConfig → srsran_mib_nr_t × Bool
  encode_mib : srsran_mib_nr_t → Nat → Bool → Option P
  get_subframe_size : Nat
  generate_ssb : Nat → P → List S → Nat → List S × Nat

/-- One call made by a controller to the radio abstraction or to the signal engine (or a
sleep), with the arguments that matter. -/
inductive Call (S P : Type) where
  | start_rx
  | receive (nsamples : Nat)
  | stop_rx
  | scan (window : List S) (len : Nat) (target_pci : Option Nat)
  | sleep_ms (ms : Nat)
  | modify_mib (mib : srsran_mib_nr_t)
  | encode_mib (mib : srsran_mib_nr_t) (ssb_idx : Nat) (hrf : Bool)
  | get_subframe_size
  | generate_ssb (pci : Nat) (msg : P) (ssb_idx : Nat)
  | start_tx
  | rf_init
  | ssb_init
  | transmit (buffer : List S) (nsamples : Nat) (is_start is_end : Bool)
  | stop_tx

namespace Call

variable {S P : Type}

/-- The call is `rf.receive`. -/
def is_receive : Call S P → Bool
  | receive _ => true
  | _ => false

/-- The call is `rf.stop_rx`. -/
def is_stop_rx : Call S P → Bool
  | stop_rx => true
  | _ => false

/-- The call is `ssb_proc.scan`. -/
def is_scan : Call S P → Bool
  | scan _ _ _ => true
  | _ => false

/-- The call is `rf.stop_tx`. -/
def is_stop_tx : Call S P → Bool
  | stop_tx => true
  | _ => false

/-- The call is made to the signal engine. -/
def is_engine : Call S P → Bool
  | scan _ _ _ => true
  | modify_mib _ => true
  | encode_mib _ _ _ => true
  | get_subframe_size => true
  | generate_ssb _ _ _ => true
  | _ => false

/-- The call is `rf.transmit`. -/
def is_transmit : Call S P → Bool
  | transmit _ _ _ _ => true
  | _ => false

end Call

/-! ## Machine integers -/

/-- Range of `uint32_t`. -/
def UINT32_RANGE : Nat := 2 ^ 32

/-- Largest `int`. -/
def INT_MAX : Int := 2 ^ 31 - 1

/-- Smallest `int`. -/
def INT_MIN : Int := -2 ^ 31

/-- The increment `n++` of an `int`.  Up to `INT_MAX - 1` the result is `n + 1`; the overflow at
`INT_MAX`, undefined in C++, is the two's-complement wrap to `INT_MIN`. -/
def int_incr (n : Int) : Int := (n + 1 - INT_MIN) % (UINT32_RANGE : Int) + INT_MIN

/-- The conversion `(uint32_t)n` of an `int`. -/
def to_u32 (n : Int) : Nat := (n % (UINT32_RANGE : Int)).toNat

/-- Subtraction of `uint32_t` values. -/
def u32_sub (a b : Nat) : Nat := (a + UINT32_RANGE - b % UINT32_RANGE) % UINT32_RANGE

/-- Addition of `uint32_t` values. -/
def u32_add (a b : Nat) : Nat := (a + b) % UINT32_RANGE

/-! ## `scan_for_ssb` -/

section Scan

variable {S P : Type}

/-- `std::memcpy(&dst[pos], src, n * sizeof(sample))`: the samples `src[0 .. n)` overwrite
`dst[pos .. pos + n)`. -/
def memcpy (dst : List S) (pos : Nat) (src : Nat → S) (n : Nat) : List S :=
  (List.range n).foldl (fun buf i => buf.set (pos + i) (src i)) dst

/-- What one iteration of the scan loop reads from its environment: the flag `running` at the
loop condition, the elapsed time computed from the clock, the value `rf.receive` returns and
the contents of `rx_buffer` after that call. -/
structure ScanEvent (S : Type) where
  running : Bool
  elapsed_sec : ℚ
  nrecv : Int
  rx_buffer : Nat → S

/-- The variables of `scan_for_ssb` that live across loop iterations: the search window, its
write cursor and the out-parameter `result`. -/
structure ScanState (S : Type) where
  search_buffer : List S
  search_buffer_pos : Nat
  result : SsbSearchResult

/-- How one iteration of the scan loop ends. -/
inductive ScanStep (S : Type) where
  | next (s : ScanState S)
  | exit
  | found (result : SsbSearchResult)

/-- The filter handed to the detector: `target_pci` is set only with `scan_for_target`. -/
def target_filter (config : Config) : Option Nat :=
  if config.attack.scan_for_target then some config.attack.target_pci else none

/-- Number of samples the accumulation step copies (`samples_to_copy`). -/
def samples_to_copy (search_buffer_size : Nat) (s : ScanState S) (nrecv : Int) : Nat :=
  min (to_u32 nrecv) (u32_sub search_buffer_size s.search_buffer_pos)

/-- The window after the accumulation step of an iteration. -/
def accumulate_buffer (search_buffer_size : Nat) (s : ScanState S) (e : ScanEvent S) : List S :=
  memcpy s.search_buffer s.search_buffer_pos e.rx_buffer
    (samples_to_copy search_buffer_size s e.nrecv)

/-- The write cursor after the accumulation step of an iteration. -/
def accumulate_pos (search_buffer_size : Nat) (s : ScanState S) (e : ScanEvent S) : Nat :=
  u32_add s.search_buffer_pos (samples_to_copy search_buffer_size s e.nrecv)

/-- One iteration of `while (running)` in `scan_for_ssb`: the calls it makes and how it ends. -/
def scan_iter (ssb_proc : SsbProcessor S P) (config : Config)
    (samples_per_iter search_buffer_size : Nat) (s : ScanState S) (e : ScanEvent S) :
    List (Call S P) × ScanStep S :=
  if e.running = false then ([], .exit)
  else if e.elapsed_sec > config.operation.scan_duration_sec then ([], .exit)
  else if e.nrecv ≤ 0 then ([.receive samples_per_iter, .sleep_ms 10], .next s)
  else
    let buf := accumulate_buffer search_buffer_size s e
    let pos := accumulate_pos search_buffer_size s e
    if pos ≥ search_buffer_size then
      let target_pci := target_filter config
      let result := ssb_proc.scan buf search_buffer_size target_pci
      if result.found then
        ([.receive samples_per_iter, .scan buf search_buffer_size target_pci, .stop_rx],
          .found result)
      else
        ([.receive samples_per_iter, .scan buf search_buffer_size target_pci],
          .next { search_buffer := buf, search_buffer_pos := 0, result := result })
    else
      ([.receive samples_per_iter],
        .next { search_buffer := buf, search_buffer_pos := pos, result := s.result })

/-- How the scan loop has ended, if it has. -/
inductive ScanExit (S : Type) where
  | running (s : ScanState S)
  | broke (s : ScanState S)
  | returned (result : SsbSearchResult)

/-- The scan loop over a list of events, from state `s`. -/
def scan_loop (ssb_proc : SsbProcessor S P) (config : Config)
    (samples_per_iter search_buffer_size : Nat) :
    ScanState S → List (ScanEvent S) → List (Call S P) × ScanExit S
  | s, [] => ([], .running s)
  | s, e :: es =>
    match scan_iter ssb_proc config samples_per_iter search_buffer_size s e with
    | (calls, .next s') =>
      let rest := scan_loop ssb_proc config samples_per_iter search_buffer_size s' es
      (calls ++ rest.1, rest.2)
    | (calls, .exit) => (calls, .broke s)
    | (calls, .found result) => (calls, .returned result)

/-- What a controller has done: the calls made so far and the value returned, if it has
returned. -/
structure Outcome (S P R : Type) where
  trace : List (Call S P)
  ret : Option R

/-- The state of `scan_for_ssb` when the loop is first entered: a zero-filled window, cursor
zero, and the caller's `result`. -/
def scan_init [Zero S] (search_buffer_size : Nat) (result : SsbSearchResult) : ScanState S :=
  { search_buffer := List.replicate search_buffer_size 0, search_buffer_pos := 0,
    result := result }

/-- The calls of `scan_for_ssb` between a successful `start_rx` and the loop: the warm-up
sleep and ten discarded receive calls. -/
def scan_prologue (samples_per_iter : Nat) : List (Call S P) :=
  [.start_rx, .sleep_ms 500] ++ List.replicate 10 (.receive samples_per_iter)

/-- The function `scan_for_ssb`.  `samples_per_iter` and `search_buffer_size` are the two
buffer sizes it computes from the sample rate; `start_rx_ok` is what `rf.start_rx` returns;
`result` is the out-parameter as the caller passes it.  The value returned is the boolean
together with the final contents of the out-parameter. -/
def scan_for_ssb [Zero S] (start_rx_ok : Bool) (ssb_proc : SsbProcessor S P) (config : Config)
    (samples_per_iter search_buffer_size : Nat) (result : SsbSearchResult)
    (events : List (ScanEvent S)) : Outcome S P (Bool × SsbSearchResult) :=
  if start_rx_ok = false then { trace := [.start_rx], ret := some (false, result) }
  else
    let loop := scan_loop ssb_proc config samples_per_iter search_buffer_size
      (scan_init search_buffer_size result) events
    match loop.2 with
    | .running _ => { trace := scan_prologue samples_per_iter ++ loop.1, ret := none }
    | .broke s =>
      { trace := scan_prologue samples_per_iter ++ loop.1 ++ [.stop_rx],
        ret := some (false, s.result) }
    | .returned r => { trace := scan_prologue samples_per_iter ++ loop.1, ret := some (true, r) }

end Scan

/-! ## `transmit_spoofed_ssb` -/

section Transmit

/-- The single-precision (`float`) arithmetic of the platform and the two `float` literals, as
`transmit_spoofed_ssb` uses them.  No law is assumed of the operations: rounding, overflow to
infinity and NaN are whatever the operations do. -/
structure FloatArith (F : Type) where
  add : F → F → F
  mul : F → F → F
  div : F → F → F
  sqrt : F → F
  norm : F × F → F
  of_uint32 : Nat → F
  target_amplitude : F
  epsilon : F

variable {F : Type} [Zero F] {P : Type}

/-- The accumulation loop `check_power += std::norm(tx_buffer[i])` over the first `nsamples`
samples, from `0.0f`. -/
def check_power (ops : FloatArith F) (tx_buffer : List (F × F)) (nsamples : Nat) : F :=
  (tx_buffer.take nsamples).foldl (fun acc z => ops.add acc (ops.norm z)) 0

/-- The measured amplitude `std::sqrt(check_power / nsamples)`. -/
def current_amplitude (ops : FloatArith F) (tx_buffer : List (F × F)) (nsamples : Nat) : F :=
  ops.sqrt (ops.div (check_power ops tx_buffer nsamples) (ops.of_uint32 nsamples))

/-- The factor `scale_factor = target_amplitude / (current_amplitude + 1e-12f)`. -/
def scale_factor (ops : FloatArith F) (tx_buffer : List (F × F)) (nsamples : Nat) : F :=
  ops.div ops.target_amplitude (ops.add (current_amplitude ops tx_buffer nsamples) ops.epsilon)

/-- The loop `tx_buffer[i] *= scale_factor` over the first `nsamples` samples. -/
def scale_buffer (ops : FloatArith F) (tx_buffer : List (F × F)) (nsamples : Nat)
    (factor : F) : List (F × F) :=
  (tx_buffer.take nsamples).map (fun z => (ops.mul z.1 factor, ops.mul z.2 factor)) ++
    tx_buffer.drop nsamples

/-- The amplitude normalization of `transmit_spoofed_ssb`: the transmit buffer after the
scaling loop. -/
def normalize_amplitude (ops : FloatArith F) (tx_buffer : List (F × F)) (nsamples : Nat) :
    List (F × F) :=
  scale_buffer ops tx_buffer nsamples (scale_factor ops tx_buffer nsamples)

/-- What one iteration of the continuous-transmit loop reads from its environment: the flag
`running` at the loop condition and the value `rf.transmit` returns.  The single transmit
call of single-shot mode reads `nsent` of the first event. -/
structure TxEvent where
  running : Bool
  nsent : Int

/-- The variables of the continuous-transmit loop.  Both are `int` in the source: `tx_count`
is incremented without bound (`int_incr`), `consecutive_errors` never exceeds the ceiling. -/
structure TxState where
  tx_count : Int
  consecutive_errors : Nat
deriving DecidableEq, Repr

/-- The constant `max_consecutive_errors`. -/
def max_consecutive_errors : Nat := 10

/-- How one iteration of the continuous-transmit loop ends: it loops again, the loop
condition was false, or the error ceiling `break` was taken. -/
inductive TxStep where
  | next (s : TxState)
  | cancelled
  | aborted
deriving DecidableEq, Repr

/-- One iteration of `while (running)` in continuous mode. -/
def tx_iter {S : Type} (tx_buffer : List S) (nsamples : Nat) (s : TxState) (e : TxEvent) :
    List (Call S P) × TxStep :=
  if e.running = false then ([], .cancelled)
  else
    let call : Call S P := .transmit tx_buffer nsamples (s.tx_count == 0) false
    if e.nsent < 0 then
      let consecutive_errors := s.consecutive_errors + 1
      if consecutive_errors ≥ max_consecutive_errors then ([call], .aborted)
      else ([call, .sleep_ms 100], .next { s with consecutive_errors := consecutive_errors })
    else ([call], .next { tx_count := int_incr s.tx_count, consecutive_errors := 0 })

/-- How the continuous-transmit loop has ended, if it has. -/
inductive TxExit where
  | running (s : TxState)
  | cancelled (s : TxState)
  | aborted (s : TxState)
deriving DecidableEq, Repr

/-- The continuous-transmit loop over a list of events, from state `s`. -/
def tx_loop {S : Type} (tx_buffer : List S) (nsamples : Nat) :
    TxState → List TxEvent → List (Call S P) × TxExit
  | s, [] => ([], .running s)
  | s, e :: es =>
    match tx_iter tx_buffer nsamples s e with
    | (calls, .next s') =>
      let rest := tx_loop tx_buffer nsamples s' es
      (calls ++ rest.1, rest.2)
    | (calls, .cancelled) => (calls, .cancelled s)
    | (calls, .aborted) => (calls, .aborted s)

/-- The transmission part of `transmit_spoofed_ssb`, from `rf.start_tx` on, for the
normalized buffer. -/
def transmit_stage {S : Type} (start_tx_ok : Bool) (config : Config) (tx_buffer : List S)
    (nsamples : Nat) (events : List TxEvent) : Outcome S P Bool :=
  if start_tx_ok = false then { trace := [.start_tx], ret := some false }
  else if config.attack.continuous_tx then
    let loop : List (Call S P) × TxExit :=
      tx_loop tx_buffer nsamples { tx_count := 0, consecutive_errors := 0 } events
    match loop.2 with
    | .running _ => { trace := [.start_tx] ++ loop.1, ret := none }
    | .cancelled _ => { trace := [.start_tx] ++ loop.1 ++ [.stop_tx], ret := some true }
    | .aborted _ => { trace := [.start_tx] ++ loop.1 ++ [.stop_tx], ret := some true }
  else
    match events with
    | [] => { trace := [.start_tx], ret := none }
    | e :: _ =>
      if e.nsent < 0 then
        { trace := [.start_tx, .transmit tx_buffer nsamples true true], ret := some false }
      else
        { trace := [.start_tx, .transmit tx_buffer nsamples true true, .stop_tx],
          ret := some true }

/-- The function `transmit_spoofed_ssb`.  `ops` is the `float` arithmetic, `start_tx_ok` is what
`rf.start_tx` returns, `events` is what the transmit calls and the loop condition read. -/
def transmit_spoofed_ssb (ops : FloatArith F) (start_tx_ok : Bool) (ssb_proc : SsbProcessor (F × F) P)
    (config : Config) (original_ssb : SsbSearchResult) (events : List TxEvent) :
    Outcome (F × F) P Bool :=
  let modified_mib := (ssb_proc.modify_mib original_ssb.mib config.attack).1
  match ssb_proc.encode_mib modified_mib original_ssb.ssb_idx original_ssb.mib.hrf with
  | none =>
    { trace := [.modify_mib original_ssb.mib,
        .encode_mib modified_mib original_ssb.ssb_idx original_ssb.mib.hrf],
      ret := some false }
  | some modified_pbch_msg =>
    let ssb_size := ssb_proc.get_subframe_size
    let generated := ssb_proc.generate_ssb original_ssb.pci modified_pbch_msg
      (List.replicate ssb_size 0) original_ssb.ssb_idx
    let nsamples := generated.2
    let calls : List (Call (F × F) P) :=
      [.modify_mib original_ssb.mib,
        .encode_mib modified_mib original_ssb.ssb_idx original_ssb.mib.hrf,
        .get_subframe_size,
        .generate_ssb original_ssb.pci modified_pbch_msg original_ssb.ssb_idx]
    if nsamples = 0 then { trace := calls, ret := some false }
    else
      let tx_buffer := normalize_amplitude ops generated.1 nsamples
      let stage : Outcome (F × F) P Bool :=
        transmit_stage start_tx_ok config tx_buffer nsamples events
      { trace := calls ++ stage.trace, ret := stage.ret }

end Transmit

/-! ## `main` -/

section Main

variable {F : Type} [Zero F] {P : Type}

/-- What the run of `main` reads from its environment after argument parsing: the loaded
configuration (or failure to load it), the results of the two initializations and of the two
stream starts, the two buffer sizes `scan_for_ssb` computes, the default-constructed
`ssb_result`, and the events of the two loops. -/
structure MainEnv (F : Type) where
  config : Option Config
  rf_init_ok : Bool
  ssb_init_ok : Bool
  start_rx_ok : Bool
  start_tx_ok : Bool
  samples_per_iter : Nat
  search_buffer_size : Nat
  ssb_result : SsbSearchResult
  scan_events : List (ScanEvent (F × F))
  tx_events : List TxEvent

/-- The function `main` from the loading of the configuration on; the value returned is the
completion status of the process. -/
def main (ops : FloatArith F) (ssb_proc : SsbProcessor (F × F) P) (env : MainEnv F) :
    Outcome (F × F) P Int :=
  match env.config with
  | none => { trace := [], ret := some 1 }
  | some config =>
    if env.rf_init_ok = false then { trace := [.rf_init], ret := some 1 }
    else if env.ssb_init_ok = false then { trace := [.rf_init, .ssb_init], ret := some 1 }
    else
      let scanned : Outcome (F × F) P (Bool × SsbSearchResult) :=
        scan_for_ssb env.start_rx_ok ssb_proc config env.samples_per_iter
          env.search_buffer_size env.ssb_result env.scan_events
      match scanned.ret with
      | none => { trace := [.rf_init, .ssb_init] ++ scanned.trace, ret := none }
      | some (false, _) => { trace := [.rf_init, .ssb_init] ++ scanned.trace, ret := some 1 }
      | some (true, ssb_result) =>
        let sent : Outcome (F × F) P Bool :=
          transmit_spoofed_ssb ops env.start_tx_ok ssb_proc config ssb_result env.tx_events
        match sent.ret with
        | none => { trace := [.rf_init, .ssb_init] ++ scanned.trace ++ sent.trace, ret := none }
        | some false =>
          { trace := [.rf_init, .ssb_init] ++ scanned.trace ++ sent.trace, ret := some 1 }
        | some true =>
          { trace := [.rf_init, .ssb_init] ++ scanned.trace ++ sent.trace, ret := some 0 }

end Main

/-! ## Notions used to state the properties -/

section Notions

variable {S P : Type}

/-- The window invariant at the top of a scan-loop iteration: the window has its configured
capacity and the cursor is inside it (strictly, when the capacity is positive). -/
def ScanInv (search_buffer_size : Nat) (s : ScanState S) : Prop :=
  s.search_buffer.length = search_buffer_size ∧ s.search_buffer_pos ≤ search_buffer_size ∧
    (0 < search_buffer_size → s.search_buffer_pos < search_buffer_size)

/-- The scan loop stops at this event: the cancellation flag is observed, or the elapsed time
exceeds the scan budget. -/
def scan_stops (config : Config) (e : ScanEvent S) : Prop :=
  e.running = false ∨ e.elapsed_sec > config.operation.scan_duration_sec

instance (config : Config) (e : ScanEvent S) : Decidable (scan_stops config e) :=
  inferInstanceAs
    (Decidable (e.running = false ∨ e.elapsed_sec > config.operation.scan_duration_sec))

/-- The results of the detector invocations recorded in a trace, in order. -/
def scan_results (ssb_proc : SsbProcessor S P) : List (Call S P) → List SsbSearchResult
  | [] => []
  | .scan window len target_pci :: rest =>
    ssb_proc.scan window len target_pci :: scan_results ssb_proc rest
  | _ :: rest => scan_results ssb_proc rest

/-- The events of a continuous-transmit run in which the cancellation flag is never set and
the transmit calls return `outcomes`. -/
def uncancelled (outcomes : List Int) : List TxEvent :=
  outcomes.map (fun n => { running := true, nsent := n })

/-- Number of failed transmit calls (negative return) at the end of a sequence of transmit
outcomes. -/
def trailing_failures (outcomes : List Int) : Nat :=
  (outcomes.reverse.takeWhile (fun n => decide (n < 0))).length

/-- The last `k` transmit calls of a sequence of outcomes exist and all failed. -/
def last_failed (k : Nat) (outcomes : List Int) : Prop :=
  ∃ front back, outcomes = front ++ back ∧ back.length = k ∧ ∀ n ∈ back, n < 0

/-- The message `transmit_spoofed_ssb` hands to the encoder: the copy of the decoded message
after the tamper step. -/
def tampered_mib {P : Type} (ssb_proc : SsbProcessor S P) (config : Config)
    (original_ssb : SsbSearchResult) : srsran_mib_nr_t :=
  (ssb_proc.modify_mib original_ssb.mib config.attack).1

/-- The calls of `transmit_spoofed_ssb` up to waveform synthesis, for the encoded message
`msg`. -/
def generation_calls {P : Type} (ssb_proc : SsbProcessor S P) (config : Config)
    (original_ssb : SsbSearchResult) (msg : P) : List (Call S P) :=
  [.modify_mib original_ssb.mib,
    .encode_mib (tampered_mib ssb_proc config original_ssb) original_ssb.ssb_idx
      original_ssb.mib.hrf,
    .get_subframe_size,
    .generate_ssb original_ssb.pci msg original_ssb.ssb_idx]

/-- What the synthesis call of `transmit_spoofed_ssb` returns for the encoded message `msg`:
the buffer contents and the sample count. -/
def generated {P : Type} [Zero S] (ssb_proc : SsbProcessor S P) (original_ssb : SsbSearchResult)
    (msg : P) : List S × Nat :=
  ssb_proc.generate_ssb original_ssb.pci msg (List.replicate ssb_proc.get_subframe_size 0)
    original_ssb.ssb_idx

end Notions

/-! ## Notions used to state the amplitude property -/

section AmplitudeNotions

variable {F : Type} [Zero F]

end AmplitudeNotions

/-! ## Concrete inputs -/

section Concrete

/-- A configuration: scan for cell 1 for at most 5 seconds. -/
def demo_config (continuous_tx : Bool) : Config :=
  { rf := { device_name := "b200", device_args := "", tx_freq_hz := 0, rx_freq_hz := 0,
            srate_hz := 0, tx_gain_db := 0, rx_gain_db := 0 },
    ssb := { pattern := "C", scs_khz := 30, periodicity_ms := 20, f_offset_hz := 0,
             beta_pss := 0, beta_sss := 0, beta_pbch := 0, beta_pbch_dmrs := 0 },
    attack := { target_pci := 1, scan_for_target := true, modify_corset0_idx := false,
                modify_ss0_idx := false, modify_cell_barred := false, corset0_idx_value := 0,
                ss0_idx_value := 0, cell_barred_value := false, tx_power_db := 0,
                continuous_tx := continuous_tx },
    operation := { scan_duration_sec := 5, log_level := "info", log_file := "" } }

/-- A message with the frame-timing bit set. -/
def demo_mib : srsran_mib_nr_t :=
  { hrf := true, coreset0_idx := 3, ss0_idx := 4, cell_barred := false }

/-- A detection result with the given found flag. -/
def demo_result (found : Bool) : SsbSearchResult :=
  { found := found, pci := 1, ssb_idx := 2, snr_db := 0, rsrp_dbm := 0, mib := demo_mib }

/-- A decimal arithmetic for the concrete inputs: exact rational operations, and a square
root rounded down to six decimals. -/
def demo_arith : FloatArith ℚ :=
  { add := fun a b => a + b,
    mul := fun a b => a * b,
    div := fun a b => a / b,
    sqrt := fun a => (Nat.sqrt (a * 10 ^ 12).floor.toNat : ℚ) / 10 ^ 6,
    norm := fun z => z.1 * z.1 + z.2 * z.2,
    of_uint32 := fun n => (n : ℚ),
    target_amplitude := 7 / 10,
    epsilon := 1 / 10 ^ 12 }

/-- A signal engine over rational samples: the detector reports `found` for every window, the
tamper step clears the frame-timing bit and reports no modification, encoding succeeds and
synthesis yields the two samples `(1, 0)` and `(0, 1)`. -/
def demo_proc (found : Bool) : SsbProcessor (ℚ × ℚ) Unit :=
  { scan := fun _ _ _ => demo_result found,
    modify_mib := fun mib _ => ({ mib with hrf := false }, false),
    encode_mib := fun _ _ _ => some (),
    get_subframe_size := 2,
    generate_ssb := fun _ _ _ _ => ([(1, 0), (0, 1)], 2) }

/-- A scan event: the flag is `running`, the clock reads `elapsed_sec`, the receive call
returns `nrecv` and leaves the sample `(1, 0)` in every position of `rx_buffer`. -/
def demo_event (running : Bool) (elapsed_sec : ℚ) (nrecv : Int) : ScanEvent (ℚ × ℚ) :=
  { running := running, elapsed_sec := elapsed_sec, nrecv := nrecv, rx_buffer := fun _ => (1, 0) }

/-- The loop state after a first chunk of three samples into a window of capacity 4. -/
def demo_state : ScanState (ℚ × ℚ) :=
  { search_buffer := [(1, 0), (1, 0), (1, 0), 0], search_buffer_pos := 3,
    result := demo_result false }

/-- An environment of `main` in which loading, both initializations and both stream starts
succeed, with a window of capacity 4 and chunks of 3 samples. -/
def demo_env (scan_events : List (ScanEvent (ℚ × ℚ))) (tx_events : List TxEvent)
    (continuous_tx : Bool) : MainEnv ℚ :=
  { config := some (demo_config continuous_tx), rf_init_ok := true, ssb_init_ok := true,
    start_rx_ok := true, start_tx_ok := true, samples_per_iter := 3, search_buffer_size := 4,
    ssb_result := demo_result false, scan_events := scan_events, tx_events := tx_events }

end Concrete

/-! ## Lemmas on machine integers and on `memcpy` -/

theorem u32_sub_of_le {a b : Nat} (hb : b ≤ a) (ha : a < UINT32_RANGE) : u32_sub a b = a - b := by
  unfold u32_sub
  have hb' : b % UINT32_RANGE = b := Nat.mod_eq_of_lt (lt_of_le_of_lt hb ha)
  rw [hb']
  have h1 : a + UINT32_RANGE - b = (a - b) + UINT32_RANGE := by omega
  rw [h1, Nat.add_mod_right]
  exact Nat.mod_eq_of_lt (lt_of_le_of_lt (Nat.sub_le a b) ha)

theorem u32_add_of_lt {a b : Nat} (h : a + b < UINT32_RANGE) : u32_add a b = a + b := by
  unfold u32_add
  exact Nat.mod_eq_of_lt h

theorem to_u32_of_nonneg {n : Int} (h0 : 0 ≤ n) (h1 : n ≤ INT_MAX) : to_u32 n = n.toNat := by
  unfold to_u32
  have hlt : n < (UINT32_RANGE : Int) := by
    have : INT_MAX < (UINT32_RANGE : Int) := by decide
    omega
  rw [Int.emod_eq_of_lt h0 hlt]

section MemcpyLemmas

variable {S : Type}

theorem memcpy_succ (dst : List S) (pos : Nat) (src : Nat → S) (n : Nat) :
    memcpy dst pos src (n + 1) = (memcpy dst pos src n).set (pos + n) (src n) := by
  unfold memcpy
  rw [List.range_succ, List.foldl_append]
  rfl

theorem memcpy_zero (dst : List S) (pos : Nat) (src : Nat → S) : memcpy dst pos src 0 = dst := rfl

theorem memcpy_length (dst : List S) (pos : Nat) (src : Nat → S) (n : Nat) :
    (memcpy dst pos src n).length = dst.length := by
  induction n with
  | zero => rfl
  | succ n ih => rw [memcpy_succ, List.length_set, ih]

theorem memcpy_getElem? (dst : List S) (pos : Nat) (src : Nat → S) (n j : Nat)
    (hj : j < dst.length) :
    (memcpy dst pos src n)[j]? =
      if pos ≤ j ∧ j < pos + n then some (src (j - pos)) else dst[j]? := by
  induction n with
  | zero =>
    rw [memcpy_zero]
    have : ¬ (pos ≤ j ∧ j < pos + 0) := by omega
    rw [if_neg this]
  | succ n ih =>
    rw [memcpy_succ, List.getElem?_set]
    by_cases hjn : pos + n = j
    · have hlen : pos + n < (memcpy dst pos src n).length := by
        rw [memcpy_length, hjn]; exact hj
      have hc : pos ≤ j ∧ j < pos + (n + 1) := by omega
      have hsub : j - pos = n := by omega
      rw [if_pos hjn, if_pos hlen, if_pos hc, hsub]
    · rw [if_neg hjn, ih]
      by_cases hc : pos ≤ j ∧ j < pos + n
      · have hc' : pos ≤ j ∧ j < pos + (n + 1) := by omega
        rw [if_pos hc, if_pos hc']
      · have hc' : ¬ (pos ≤ j ∧ j < pos + (n + 1)) := by omega
        rw [if_neg hc, if_neg hc']

theorem memcpy_congr (dst : List S) (pos : Nat) (src src' : Nat → S) (n : Nat)
    (h : ∀ i, i < n → src i = src' i) : memcpy dst pos src n = memcpy dst pos src' n := by
  induction n with
  | zero => rfl
  | succ n ih =>
    rw [memcpy_succ, memcpy_succ, ih (fun i hi => h i (Nat.lt_succ_of_lt hi)),
      h n (Nat.lt_succ_self n)]

end MemcpyLemmas

/-! ## One iteration of the scan loop -/

section ScanIter

variable {S P : Type} (ssb_proc : SsbProcessor S P) (config : Config)
  (samples_per_iter search_buffer_size : Nat)

theorem scan_iter_stop (s : ScanState S) (e : ScanEvent S) (h : scan_stops config e) :
    scan_iter ssb_proc config samples_per_iter search_buffer_size s e = ([], .exit) := by
  unfold scan_iter
  rcases h with h | h
  · rw [if_pos h]
  · by_cases hr : e.running = false
    · rw [if_pos hr]
    · rw [if_neg hr, if_pos h]

theorem scan_iter_transient (s : ScanState S) (e : ScanEvent S) (h : ¬ scan_stops config e)
    (hn : e.nrecv ≤ 0) :
    scan_iter ssb_proc config samples_per_iter search_buffer_size s e =
      ([.receive samples_per_iter, .sleep_ms 10], .next s) := by
  unfold scan_stops at h
  unfold scan_iter
  rw [if_neg (fun hr => h (Or.inl hr)), if_neg (fun ht => h (Or.inr ht)), if_pos hn]

theorem scan_iter_partial (s : ScanState S) (e : ScanEvent S) (h : ¬ scan_stops config e)
    (hn : 0 < e.nrecv) (hp : accumulate_pos search_buffer_size s e < search_buffer_size) :
    scan_iter ssb_proc config samples_per_iter search_buffer_size s e =
      ([.receive samples_per_iter],
        .next { search_buffer := accumulate_buffer search_buffer_size s e,
                search_buffer_pos := accumulate_pos search_buffer_size s e,
                result := s.result }) := by
  unfold scan_stops at h
  unfold scan_iter
  rw [if_neg (fun hr => h (Or.inl hr)), if_neg (fun ht => h (Or.inr ht)), if_neg (not_le.mpr hn)]
  simp only [ge_iff_le]
  rw [if_neg (not_le.mpr hp)]

theorem scan_iter_no_match (s : ScanState S) (e : ScanEvent S) (h : ¬ scan_stops config e)
    (hn : 0 < e.nrecv) (hp : search_buffer_size ≤ accumulate_pos search_buffer_size s e)
    (hf : (ssb_proc.scan (accumulate_buffer search_buffer_size s e) search_buffer_size
      (target_filter config)).found = false) :
    scan_iter ssb_proc config samples_per_iter search_buffer_size s e =
      ([.receive samples_per_iter,
        .scan (accumulate_buffer search_buffer_size s e) search_buffer_size
          (target_filter config)],
        .next { search_buffer := accumulate_buffer search_buffer_size s e,
                search_buffer_pos := 0,
                result := ssb_proc.scan (accumulate_buffer search_buffer_size s e)
                  search_buffer_size (target_filter config) }) := by
  unfold scan_stops at h
  unfold scan_iter
  rw [if_neg (fun hr => h (Or.inl hr)), if_neg (fun ht => h (Or.inr ht)), if_neg (not_le.mpr hn)]
  simp only [ge_iff_le]
  rw [if_pos hp, hf]
  rfl

theorem scan_iter_match (s : ScanState S) (e : ScanEvent S) (h : ¬ scan_stops config e)
    (hn : 0 < e.nrecv) (hp : search_buffer_size ≤ accumulate_pos search_buffer_size s e)
    (hf : (ssb_proc.scan (accumulate_buffer search_buffer_size s e) search_buffer_size
      (target_filter config)).found = true) :
    scan_iter ssb_proc config samples_per_iter search_buffer_size s e =
      ([.receive samples_per_iter,
        .scan (accumulate_buffer search_buffer_size s e) search_buffer_size
          (target_filter config), .stop_rx],
        .found (ssb_proc.scan (accumulate_buffer search_buffer_size s e)
          search_buffer_size (target_filter config))) := by
  unfold scan_stops at h
  unfold scan_iter
  rw [if_neg (fun hr => h (Or.inl hr)), if_neg (fun ht => h (Or.inr ht)), if_neg (not_le.mpr hn)]
  simp only [ge_iff_le]
  rw [if_pos hp, hf]
  rfl

/-- The five ways an iteration of the scan loop can go. -/
theorem scan_iter_cases (s : ScanState S) (e : ScanEvent S) :
    (scan_stops config e ∧
      scan_iter ssb_proc config samples_per_iter search_buffer_size s e = ([], .exit)) ∨
    (¬ scan_stops config e ∧ e.nrecv ≤ 0 ∧
      scan_iter ssb_proc config samples_per_iter search_buffer_size s e =
        ([.receive samples_per_iter, .sleep_ms 10], .next s)) ∨
    (¬ scan_stops config e ∧ 0 < e.nrecv ∧
      accumulate_pos search_buffer_size s e < search_buffer_size ∧
      scan_iter ssb_proc config samples_per_iter search_buffer_size s e =
        ([.receive samples_per_iter],
          .next { search_buffer := accumulate_buffer search_buffer_size s e,
                  search_buffer_pos := accumulate_pos search_buffer_size s e,
                  result := s.result })) ∨
    (¬ scan_stops config e ∧ 0 < e.nrecv ∧
      search_buffer_size ≤ accumulate_pos search_buffer_size s e ∧
      (ssb_proc.scan (accumulate_buffer search_buffer_size s e) search_buffer_size
        (target_filter config)).found = false ∧
      scan_iter ssb_proc config samples_per_iter search_buffer_size s e =
        ([.receive samples_per_iter,
          .scan (accumulate_buffer search_buffer_size s e) search_buffer_size
            (target_filter config)],
          .next { search_buffer := accumulate_buffer search_buffer_size s e,
                  search_buffer_pos := 0,
                  result := ssb_proc.scan (accumulate_buffer search_buffer_size s e)
                    search_buffer_size (target_filter config) })) ∨
    (¬ scan_stops config e ∧ 0 < e.nrecv ∧
      search_buffer_size ≤ accumulate_pos search_buffer_size s e ∧
      (ssb_proc.scan (accumulate_buffer search_buffer_size s e) search_buffer_size
        (target_filter config)).found = true ∧
      scan_iter ssb_proc config samples_per_iter search_buffer_size s e =
        ([.receive samples_per_iter,
          .scan (accumulate_buffer search_buffer_size s e) search_buffer_size
            (target_filter config), .stop_rx],
          .found (ssb_proc.scan (accumulate_buffer search_buffer_size s e)
            search_buffer_size (target_filter config)))) := by
  by_cases h : scan_stops config e
  · exact Or.inl ⟨h, scan_iter_stop _ _ _ _ s e h⟩
  · by_cases hn : e.nrecv ≤ 0
    · exact Or.inr (Or.inl ⟨h, hn, scan_iter_transient _ _ _ _ s e h hn⟩)
    · have hn' : 0 < e.nrecv := not_le.mp hn
      by_cases hp : accumulate_pos search_buffer_size s e < search_buffer_size
      · exact Or.inr (Or.inr (Or.inl ⟨h, hn', hp, scan_iter_partial _ _ _ _ s e h hn' hp⟩))
      · have hp' := not_lt.mp hp
        rcases Bool.eq_false_or_eq_true (ssb_proc.scan
            (accumulate_buffer search_buffer_size s e) search_buffer_size
            (target_filter config)).found with hf | hf
        · exact Or.inr (Or.inr (Or.inr (Or.inr
            ⟨h, hn', hp', hf, scan_iter_match _ _ _ _ s e h hn' hp' hf⟩)))
        · exact Or.inr (Or.inr (Or.inr (Or.inl
            ⟨h, hn', hp', hf, scan_iter_no_match _ _ _ _ s e h hn' hp' hf⟩)))

end ScanIter

/-! ## The window invariant -/

section ScanInvariant

variable {S P : Type} (ssb_proc : SsbProcessor S P) (config : Config)
  (samples_per_iter search_buffer_size : Nat)

theorem scan_init_inv [Zero S] (result : SsbSearchResult) :
    ScanInv search_buffer_size (scan_init search_buffer_size result : ScanState S) := by
  refine ⟨?_, ?_, ?_⟩
  · simp [scan_init]
  · simp [scan_init]
  · intro h
    simpa [scan_init] using h

theorem samples_to_copy_le {s : ScanState S} (hinv : ScanInv search_buffer_size s)
    (hlt : search_buffer_size < UINT32_RANGE) (nrecv : Int) :
    samples_to_copy search_buffer_size s nrecv ≤ search_buffer_size - s.search_buffer_pos := by
  unfold samples_to_copy
  rw [u32_sub_of_le hinv.2.1 hlt]
  exact Nat.min_le_right _ _

theorem accumulate_pos_eq {s : ScanState S} (hinv : ScanInv search_buffer_size s)
    (hlt : search_buffer_size < UINT32_RANGE) (e : ScanEvent S) :
    accumulate_pos search_buffer_size s e =
      s.search_buffer_pos + samples_to_copy search_buffer_size s e.nrecv := by
  unfold accumulate_pos
  apply u32_add_of_lt
  have h1 := samples_to_copy_le search_buffer_size hinv hlt e.nrecv
  have h2 := hinv.2.1
  omega

theorem accumulate_pos_le {s : ScanState S} (hinv : ScanInv search_buffer_size s)
    (hlt : search_buffer_size < UINT32_RANGE) (e : ScanEvent S) :
    accumulate_pos search_buffer_size s e ≤ search_buffer_size := by
  rw [accumulate_pos_eq search_buffer_size hinv hlt e]
  have h1 := samples_to_copy_le search_buffer_size hinv hlt e.nrecv
  have h2 := hinv.2.1
  omega

theorem accumulate_buffer_length {s : ScanState S} (hinv : ScanInv search_buffer_size s)
    (e : ScanEvent S) :
    (accumulate_buffer search_buffer_size s e).length = search_buffer_size := by
  unfold accumulate_buffer
  rw [memcpy_length]
  exact hinv.1

theorem scan_iter_inv {s s' : ScanState S} (hinv : ScanInv search_buffer_size s)
    (e : ScanEvent S) (calls : List (Call S P))
    (h : scan_iter ssb_proc config samples_per_iter search_buffer_size s e = (calls, .next s')) :
    ScanInv search_buffer_size s' := by
  rcases scan_iter_cases ssb_proc config samples_per_iter search_buffer_size s e with
    ⟨_, h'⟩ | ⟨_, _, h'⟩ | ⟨_, _, hp, h'⟩ | ⟨_, _, _, _, h'⟩ | ⟨_, _, _, _, h'⟩
  · rw [h'] at h
    cases h
  · rw [h'] at h
    cases h
    exact hinv
  · rw [h'] at h
    cases h
    exact ⟨accumulate_buffer_length search_buffer_size hinv e, Nat.le_of_lt hp, fun _ => hp⟩
  · rw [h'] at h
    cases h
    exact ⟨accumulate_buffer_length search_buffer_size hinv e, Nat.zero_le _, fun h0 => h0⟩
  · rw [h'] at h
    cases h

end ScanInvariant

/-! ## The scan loop -/

section ScanLoop

variable {S P : Type} (ssb_proc : SsbProcessor S P) (config : Config)
  (samples_per_iter search_buffer_size : Nat)

theorem scan_loop_nil (s : ScanState S) :
    scan_loop ssb_proc config samples_per_iter search_buffer_size s [] = ([], .running s) := rfl

theorem scan_loop_cons_next (s s' : ScanState S) (e : ScanEvent S) (es : List (ScanEvent S))
    (calls : List (Call S P))
    (h : scan_iter ssb_proc config samples_per_iter search_buffer_size s e = (calls, .next s')) :
    scan_loop ssb_proc config samples_per_iter search_buffer_size s (e :: es) =
      (calls ++ (scan_loop ssb_proc config samples_per_iter search_buffer_size s' es).1,
        (scan_loop ssb_proc config samples_per_iter search_buffer_size s' es).2) := by
  rw [scan_loop, h]

theorem scan_loop_cons_exit (s : ScanState S) (e : ScanEvent S) (es : List (ScanEvent S))
    (calls : List (Call S P))
    (h : scan_iter ssb_proc config samples_per_iter search_buffer_size s e = (calls, .exit)) :
    scan_loop ssb_proc config samples_per_iter search_buffer_size s (e :: es) =
      (calls, .broke s) := by
  rw [scan_loop, h]

theorem scan_loop_cons_found (s : ScanState S) (e : ScanEvent S) (es : List (ScanEvent S))
    (calls : List (Call S P)) (r : SsbSearchResult)
    (h : scan_iter ssb_proc config samples_per_iter search_buffer_size s e = (calls, .found r)) :
    scan_loop ssb_proc config samples_per_iter search_buffer_size s (e :: es) =
      (calls, .returned r) := by
  rw [scan_loop, h]

/-- Running the loop over `es₁ ++ es₂`: when the loop is still running after `es₁`, it goes on
with `es₂` from the state reached. -/
theorem scan_loop_append_running (es₁ es₂ : List (ScanEvent S)) (s s' : ScanState S)
    (calls : List (Call S P))
    (h : scan_loop ssb_proc config samples_per_iter search_buffer_size s es₁ =
      (calls, .running s')) :
    scan_loop ssb_proc config samples_per_iter search_buffer_size s (es₁ ++ es₂) =
      (calls ++ (scan_loop ssb_proc config samples_per_iter search_buffer_size s' es₂).1,
        (scan_loop ssb_proc config samples_per_iter search_buffer_size s' es₂).2) := by
  induction es₁ generalizing s calls with
  | nil =>
    rw [scan_loop_nil] at h
    cases h
    rfl
  | cons e es ih =>
    rcases hit : scan_iter ssb_proc config samples_per_iter search_buffer_size s e with
      ⟨c, step⟩
    cases step with
    | next s₁ =>
      rw [scan_loop_cons_next _ _ _ _ s s₁ e es c hit] at h
      rw [List.cons_append, scan_loop_cons_next _ _ _ _ s s₁ e (es ++ es₂) c hit]
      rcases hrest : scan_loop ssb_proc config samples_per_iter search_buffer_size s₁ es with
        ⟨c', ex⟩
      rw [hrest] at h
      cases h
      rw [ih s₁ c' hrest, List.append_assoc]
    | exit =>
      rw [scan_loop_cons_exit _ _ _ _ s e es c hit] at h
      cases h
    | found r =>
      rw [scan_loop_cons_found _ _ _ _ s e es c r hit] at h
      cases h

/-- The window invariant holds at the top of every iteration the loop reaches. -/
theorem scan_loop_inv (es : List (ScanEvent S))
    (s s' : ScanState S) (calls : List (Call S P)) (hinv : ScanInv search_buffer_size s)
    (h : scan_loop ssb_proc config samples_per_iter search_buffer_size s es =
      (calls, .running s')) :
    ScanInv search_buffer_size s' := by
  induction es generalizing s calls with
  | nil =>
    rw [scan_loop_nil] at h
    cases h
    exact hinv
  | cons e es ih =>
    rcases hit : scan_iter ssb_proc config samples_per_iter search_buffer_size s e with
      ⟨c, step⟩
    cases step with
    | next s₁ =>
      rw [scan_loop_cons_next _ _ _ _ s s₁ e es c hit] at h
      rcases hrest : scan_loop ssb_proc config samples_per_iter search_buffer_size s₁ es with
        ⟨c', ex⟩
      rw [hrest] at h
      cases h
      exact ih s₁ c' (scan_iter_inv _ _ _ _ hinv e c hit) hrest
    | exit =>
      rw [scan_loop_cons_exit _ _ _ _ s e es c hit] at h
      cases h
    | found r =>
      rw [scan_loop_cons_found _ _ _ _ s e es c r hit] at h
      cases h

end ScanLoop

/-! ## C4: cursor and copy discipline of the search window -/

section WindowClaims

variable {S P : Type}

/-- C4: at the top of every iteration the scan loop reaches, for a window capacity `> 0`, the
cursor is below the capacity and the window has its capacity; a chunk of `nrecv > 0` samples
copies exactly `min nrecv (capacity - cursor)` samples into positions
`[cursor, cursor + copied)` and leaves the other positions as they were, the cursor then is
`cursor + copied ≤ capacity`; the iteration depends on the chunk only through the samples
copied, so that the surplus of the chunk is dropped; and the window and cursor so computed
are the ones the loop goes on with: below the capacity the iteration makes the receive call
only and the next loop head has that window and that cursor, at the capacity the detector is
called on that window and, without a match, the next loop head has that window and cursor
zero. -/
theorem scan_window_cursor_discipline [Zero S] (ssb_proc : SsbProcessor S P) (config : Config)
    (samples_per_iter search_buffer_size : Nat) (result : SsbSearchResult)
    (hcap : 0 < search_buffer_size) (hlt : search_buffer_size < UINT32_RANGE)
    (events : List (ScanEvent S)) (calls : List (Call S P)) (s : ScanState S)
    (h : scan_loop ssb_proc config samples_per_iter search_buffer_size
      (scan_init search_buffer_size result) events = (calls, .running s)) :
    s.search_buffer_pos < search_buffer_size ∧
    s.search_buffer.length = search_buffer_size ∧
    ∀ e : ScanEvent S, 0 < e.nrecv → e.nrecv ≤ INT_MAX →
      samples_to_copy search_buffer_size s e.nrecv =
        min e.nrecv.toNat (search_buffer_size - s.search_buffer_pos) ∧
      accumulate_pos search_buffer_size s e =
        s.search_buffer_pos + samples_to_copy search_buffer_size s e.nrecv ∧
      accumulate_pos search_buffer_size s e ≤ search_buffer_size ∧
      (accumulate_buffer search_buffer_size s e).length = search_buffer_size ∧
      (∀ j, j < search_buffer_size →
        (accumulate_buffer search_buffer_size s e)[j]? =
          if s.search_buffer_pos ≤ j ∧
              j < s.search_buffer_pos + samples_to_copy search_buffer_size s e.nrecv
          then some (e.rx_buffer (j - s.search_buffer_pos)) else s.search_buffer[j]?) ∧
      (∀ e' : ScanEvent S, e'.running = e.running → e'.elapsed_sec = e.elapsed_sec →
        e'.nrecv = e.nrecv →
        (∀ i, i < samples_to_copy search_buffer_size s e.nrecv →
          e'.rx_buffer i = e.rx_buffer i) →
        scan_iter ssb_proc config samples_per_iter search_buffer_size s e' =
          scan_iter ssb_proc config samples_per_iter search_buffer_size s e) ∧
      (e.running = true → ¬ e.elapsed_sec > config.operation.scan_duration_sec →
        accumulate_pos search_buffer_size s e < search_buffer_size →
        scan_iter ssb_proc config samples_per_iter search_buffer_size s e =
          ([.receive samples_per_iter],
            .next { search_buffer := accumulate_buffer search_buffer_size s e,
                    search_buffer_pos := accumulate_pos search_buffer_size s e,
                    result := s.result }) ∧
        scan_loop ssb_proc config samples_per_iter search_buffer_size
            (scan_init search_buffer_size result) (events ++ [e]) =
          (calls ++ [.receive samples_per_iter],
            .running { search_buffer := accumulate_buffer search_buffer_size s e,
                       search_buffer_pos := accumulate_pos search_buffer_size s e,
                       result := s.result })) ∧
      (e.running = true → ¬ e.elapsed_sec > config.operation.scan_duration_sec →
        accumulate_pos search_buffer_size s e = search_buffer_size →
        (ssb_proc.scan (accumulate_buffer search_buffer_size s e) search_buffer_size
          (target_filter config)).found = false →
        scan_iter ssb_proc config samples_per_iter search_buffer_size s e =
          ([.receive samples_per_iter,
            .scan (accumulate_buffer search_buffer_size s e) search_buffer_size
              (target_filter config)],
            .next { search_buffer := accumulate_buffer search_buffer_size s e,
                    search_buffer_pos := 0,
                    result := ssb_proc.scan (accumulate_buffer search_buffer_size s e)
                      search_buffer_size (target_filter config) }) ∧
        scan_loop ssb_proc config samples_per_iter search_buffer_size
            (scan_init search_buffer_size result) (events ++ [e]) =
          (calls ++ [.receive samples_per_iter,
            .scan (accumulate_buffer search_buffer_size s e) search_buffer_size
              (target_filter config)],
            .running { search_buffer := accumulate_buffer search_buffer_size s e,
                       search_buffer_pos := 0,
                       result := ssb_proc.scan (accumulate_buffer search_buffer_size s e)
                         search_buffer_size (target_filter config) })) := by
  have hinv : ScanInv search_buffer_size s :=
    scan_loop_inv ssb_proc config samples_per_iter search_buffer_size events _ s calls
      (scan_init_inv search_buffer_size result) h
  refine ⟨hinv.2.2 hcap, hinv.1, ?_⟩
  intro e hpos hmax
  refine ⟨?_, accumulate_pos_eq search_buffer_size hinv hlt e,
    accumulate_pos_le search_buffer_size hinv hlt e,
    accumulate_buffer_length search_buffer_size hinv e, ?_, ?_, ?_, ?_⟩
  · unfold samples_to_copy
    rw [u32_sub_of_le hinv.2.1 hlt, to_u32_of_nonneg (le_of_lt hpos) hmax]
  · intro j hj
    unfold accumulate_buffer
    exact memcpy_getElem? _ _ _ _ j (by rw [hinv.1]; exact hj)
  · intro e' hr ht hn hagree
    have hbuf : accumulate_buffer search_buffer_size s e' =
        accumulate_buffer search_buffer_size s e := by
      unfold accumulate_buffer
      rw [hn]
      exact memcpy_congr _ _ _ _ _ hagree
    have hp : accumulate_pos search_buffer_size s e' =
        accumulate_pos search_buffer_size s e := by
      unfold accumulate_pos
      rw [hn]
    unfold scan_iter
    simp only [hr, ht, hn, hbuf, hp]
  · intro hr ht hp
    have hns : ¬ scan_stops config e := by
      rintro (h' | h')
      · rw [hr] at h'
        cases h'
      · exact ht h'
    have hit := scan_iter_partial ssb_proc config samples_per_iter search_buffer_size s e hns
      hpos hp
    refine ⟨hit, ?_⟩
    rw [scan_loop_append_running _ _ _ _ events [e] _ s calls h,
      scan_loop_cons_next _ _ _ _ s _ e [] _ hit, scan_loop_nil, List.append_nil]
  · intro hr ht hp hf
    have hns : ¬ scan_stops config e := by
      rintro (h' | h')
      · rw [hr] at h'
        cases h'
      · exact ht h'
    have hit := scan_iter_no_match ssb_proc config samples_per_iter search_buffer_size s e hns
      hpos (Nat.le_of_eq hp.symm) hf
    refine ⟨hit, ?_⟩
    rw [scan_loop_append_running _ _ _ _ events [e] _ s calls h,
      scan_loop_cons_next _ _ _ _ s _ e [] _ hit, scan_loop_nil, List.append_nil]

/-- Witness of C4: a window of capacity 4 after a first chunk of 3 samples; a second chunk of
3 samples then copies one sample, fills the window, and after the detector reports no match
the loop goes on with the filled window and cursor zero. -/
theorem scan_window_cursor_discipline_witness :
    scan_loop (demo_proc false) (demo_config true) 3 4 (scan_init 4 (demo_result false))
        [demo_event true 0 3] = ([.receive 3], .running demo_state) ∧
    demo_state.search_buffer_pos < 4 ∧
    samples_to_copy 4 demo_state (demo_event true 0 3).nrecv = 1 ∧
    accumulate_pos 4 demo_state (demo_event true 0 3) = 4 ∧
    accumulate_buffer 4 demo_state (demo_event true 0 3) =
      [(1, 0), (1, 0), (1, 0), (1, 0)] ∧
    scan_loop (demo_proc false) (demo_config true) 3 4 (scan_init 4 (demo_result false))
        ([demo_event true 0 3] ++ [demo_event true 0 3]) =
      ([.receive 3] ++
        [.receive 3,
          .scan (accumulate_buffer 4 demo_state (demo_event true 0 3)) 4
            (target_filter (demo_config true))],
        .running { search_buffer := accumulate_buffer 4 demo_state (demo_event true 0 3),
                   search_buffer_pos := 0,
                   result := (demo_proc false).scan
                     (accumulate_buffer 4 demo_state (demo_event true 0 3)) 4
                     (target_filter (demo_config true)) }) := by
  have hloop : scan_loop (demo_proc false) (demo_config true) 3 4
      (scan_init 4 (demo_result false)) [demo_event true 0 3] =
      ([.receive 3], .running demo_state) := by
    rfl
  have hthm := scan_window_cursor_discipline (demo_proc false) (demo_config true) 3 4
    (demo_result false) (by decide) (by decide) [demo_event true 0 3] _ _ hloop
  have hcopy := hthm.2.2 (demo_event true 0 3) (by decide) (by decide)
  have hcopied : samples_to_copy 4 demo_state (demo_event true 0 3).nrecv = 1 := by
    rw [hcopy.1]
    rfl
  have hpos : accumulate_pos 4 demo_state (demo_event true 0 3) = 4 := by
    rw [hcopy.2.1, hcopied]
    rfl
  exact ⟨hloop, hthm.1, hcopied, hpos, by rfl,
    (hcopy.2.2.2.2.2.2.2 rfl (by decide) hpos rfl).2⟩

end WindowClaims

/-! ## C5: one detector invocation per filled window -/

section DetectorClaims

variable {S P : Type}

/-- C5: in an iteration of the scan loop, from any loop head the loop reaches, the detector is
invoked exactly once when the iteration copies a chunk and the cursor has then reached the
capacity, and not at all otherwise; an invocation is given the window just filled, whose
length is the capacity, with the capacity as length argument; and when the loop goes on after
an invocation the cursor is zero. -/
theorem scan_detector_once_per_full_window [Zero S] (ssb_proc : SsbProcessor S P)
    (config : Config) (samples_per_iter search_buffer_size : Nat) (result : SsbSearchResult)
    (hlt : search_buffer_size < UINT32_RANGE)
    (events : List (ScanEvent S)) (calls : List (Call S P)) (s : ScanState S)
    (h : scan_loop ssb_proc config samples_per_iter search_buffer_size
      (scan_init search_buffer_size result) events = (calls, .running s))
    (e : ScanEvent S) :
    ((scan_iter ssb_proc config samples_per_iter search_buffer_size s e).1.countP Call.is_scan =
      if ¬ scan_stops config e ∧ 0 < e.nrecv ∧
          accumulate_pos search_buffer_size s e = search_buffer_size then 1 else 0) ∧
    (∀ window len target_pci,
      Call.scan window len target_pci ∈
          (scan_iter ssb_proc config samples_per_iter search_buffer_size s e).1 →
        window = accumulate_buffer search_buffer_size s e ∧
        window.length = search_buffer_size ∧ len = search_buffer_size) ∧
    (∀ s', (scan_iter ssb_proc config samples_per_iter search_buffer_size s e).2 = .next s' →
      (scan_iter ssb_proc config samples_per_iter search_buffer_size s e).1.countP
          Call.is_scan = 1 →
        s'.search_buffer_pos = 0) := by
  have hinv : ScanInv search_buffer_size s :=
    scan_loop_inv ssb_proc config samples_per_iter search_buffer_size events _ s calls
      (scan_init_inv search_buffer_size result) h
  have hle := accumulate_pos_le search_buffer_size hinv hlt e
  have hlen := accumulate_buffer_length search_buffer_size hinv e
  rcases scan_iter_cases ssb_proc config samples_per_iter search_buffer_size s e with
    ⟨hs, h'⟩ | ⟨hs, hn, h'⟩ | ⟨hs, hn, hp, h'⟩ | ⟨hs, hn, hp, hf, h'⟩ | ⟨hs, hn, hp, hf, h'⟩
  · rw [h']
    refine ⟨?_, ?_, ?_⟩
    · rw [if_neg (fun hc => hc.1 hs)]
      rfl
    · intro w len t hmem
      cases hmem
    · intro s' hnext
      cases hnext
  · rw [h']
    refine ⟨?_, ?_, ?_⟩
    · rw [if_neg (fun hc => absurd hc.2.1 (not_lt.mpr hn))]
      rfl
    · intro w len t hmem
      simp at hmem
    · intro s' _ hcount
      simp [Call.is_scan] at hcount
  · rw [h']
    refine ⟨?_, ?_, ?_⟩
    · rw [if_neg (fun hc => absurd hc.2.2 (Nat.ne_of_lt hp))]
      rfl
    · intro w len t hmem
      simp at hmem
    · intro s' _ hcount
      simp [Call.is_scan] at hcount
  · rw [h']
    refine ⟨?_, ?_, ?_⟩
    · rw [if_pos ⟨hs, hn, Nat.le_antisymm hle hp⟩]
      rfl
    · intro w len t hmem
      simp at hmem
      rcases hmem with ⟨hw, hl, _⟩
      exact ⟨hw, by rw [hw]; exact hlen, hl⟩
    · intro s' hnext _
      cases hnext
      rfl
  · rw [h']
    refine ⟨?_, ?_, ?_⟩
    · rw [if_pos ⟨hs, hn, Nat.le_antisymm hle hp⟩]
      rfl
    · intro w len t hmem
      simp at hmem
      rcases hmem with ⟨hw, hl, _⟩
      exact ⟨hw, by rw [hw]; exact hlen, hl⟩
    · intro s' hnext
      cases hnext

/-- Witness of C5: the chunk that fills the window of capacity 4 triggers the one detector
invocation of the iteration, on the full window. -/
theorem scan_detector_once_per_full_window_witness :
    scan_loop (demo_proc false) (demo_config true) 3 4 (scan_init 4 (demo_result false))
        [demo_event true 0 3] = ([.receive 3], .running demo_state) ∧
    scan_iter (demo_proc false) (demo_config true) 3 4 demo_state (demo_event true 0 3) =
      ([.receive 3, .scan [(1, 0), (1, 0), (1, 0), (1, 0)] 4 (some 1)],
        .next { search_buffer := [(1, 0), (1, 0), (1, 0), (1, 0)], search_buffer_pos := 0,
                result := demo_result false }) ∧
    (scan_iter (demo_proc false) (demo_config true) 3 4 demo_state
      (demo_event true 0 3)).1.countP Call.is_scan = 1 := by
  have hloop : scan_loop (demo_proc false) (demo_config true) 3 4
      (scan_init 4 (demo_result false)) [demo_event true 0 3] =
      ([.receive 3], .running demo_state) := by
    rfl
  have hthm := scan_detector_once_per_full_window (demo_proc false) (demo_config true) 3 4
    (demo_result false) (by decide) [demo_event true 0 3] _ _ hloop (demo_event true 0 3)
  refine ⟨hloop, by rfl, ?_⟩
  rw [hthm.1]
  rfl

end DetectorClaims

/-! ## The calls of the scan loop -/

section ScanTrace

variable {S P : Type} (ssb_proc : SsbProcessor S P) (config : Config)
  (samples_per_iter search_buffer_size : Nat)

theorem scan_results_append (t₁ t₂ : List (Call S P)) :
    scan_results ssb_proc (t₁ ++ t₂) = scan_results ssb_proc t₁ ++ scan_results ssb_proc t₂ := by
  induction t₁ with
  | nil => rfl
  | cons c t ih =>
    cases c <;> simp [scan_results, ih]

theorem mem_scan_results (t : List (Call S P)) (r : SsbSearchResult) :
    r ∈ scan_results ssb_proc t ↔
      ∃ window len target_pci, Call.scan window len target_pci ∈ t ∧
        ssb_proc.scan window len target_pci = r := by
  induction t with
  | nil => simp [scan_results]
  | cons c t ih =>
    cases c <;> simp [scan_results, ih]
    case scan w l tp =>
      constructor
      · rintro (h | ⟨w', l', t', hm, hr⟩)
        · exact ⟨w, l, tp, Or.inl ⟨rfl, rfl, rfl⟩, h.symm⟩
        · exact ⟨w', l', t', Or.inr hm, hr⟩
      · rintro ⟨w', l', t', (⟨hw, hl, ht⟩ | hm), hr⟩
        · left
          rw [← hr, hw, hl, ht]
        · exact Or.inr ⟨w', l', t', hm, hr⟩

/-- An iteration after which the loop goes on: it was not a stop event, it does not stop the
receiver, a detector invocation it makes reports no match and has the configured
arguments. -/
theorem scan_iter_next_facts {s s' : ScanState S} (hinv : ScanInv search_buffer_size s)
    (e : ScanEvent S) (calls : List (Call S P))
    (h : scan_iter ssb_proc config samples_per_iter search_buffer_size s e = (calls, .next s')) :
    ¬ scan_stops config e ∧ calls.countP Call.is_stop_rx = 0 ∧
    (scan_results ssb_proc calls).find? (fun r => r.found) = none ∧
    (∀ window len target_pci, Call.scan window len target_pci ∈ calls →
      target_pci = target_filter config ∧ len = search_buffer_size ∧
        window.length = search_buffer_size) := by
  have hlen := accumulate_buffer_length search_buffer_size hinv e
  rcases scan_iter_cases ssb_proc config samples_per_iter search_buffer_size s e with
    ⟨_, h'⟩ | ⟨hs, _, h'⟩ | ⟨hs, _, _, h'⟩ | ⟨hs, _, _, hf, h'⟩ | ⟨_, _, _, _, h'⟩
  · rw [h'] at h
    cases h
  · rw [h'] at h
    cases h
    refine ⟨hs, rfl, rfl, ?_⟩
    intro w l t hm
    simp at hm
  · rw [h'] at h
    cases h
    refine ⟨hs, rfl, rfl, ?_⟩
    intro w l t hm
    simp at hm
  · rw [h'] at h
    cases h
    refine ⟨hs, rfl, ?_, ?_⟩
    · simp [scan_results, hf]
    · intro w l t hm
      simp at hm
      rcases hm with ⟨hw, hl, ht⟩
      exact ⟨ht, hl, by rw [hw]; exact hlen⟩
  · rw [h'] at h
    cases h

/-- An iteration that finds a block: it was not a stop event, its last call stops the
receiver, and its one detector invocation, with the configured arguments, reports the result
handed back. -/
theorem scan_iter_found_facts {s : ScanState S} (hinv : ScanInv search_buffer_size s)
    (e : ScanEvent S) (calls : List (Call S P)) (r : SsbSearchResult)
    (h : scan_iter ssb_proc config samples_per_iter search_buffer_size s e = (calls, .found r)) :
    ¬ scan_stops config e ∧ calls.countP Call.is_stop_rx = 1 ∧
    calls.getLast? = some .stop_rx ∧
    (scan_results ssb_proc calls).find? (fun r => r.found) = some r ∧
    (∀ window len target_pci, Call.scan window len target_pci ∈ calls →
      target_pci = target_filter config ∧ len = search_buffer_size ∧
        window.length = search_buffer_size) := by
  have hlen := accumulate_buffer_length search_buffer_size hinv e
  rcases scan_iter_cases ssb_proc config samples_per_iter search_buffer_size s e with
    ⟨_, h'⟩ | ⟨_, _, h'⟩ | ⟨_, _, _, h'⟩ | ⟨_, _, _, _, h'⟩ | ⟨hs, _, _, hf, h'⟩
  · rw [h'] at h
    cases h
  · rw [h'] at h
    cases h
  · rw [h'] at h
    cases h
  · rw [h'] at h
    cases h
  · rw [h'] at h
    cases h
    refine ⟨hs, rfl, rfl, ?_, ?_⟩
    · simp [scan_results, hf]
    · intro w l t hm
      simp at hm
      rcases hm with ⟨hw, hl, ht⟩
      exact ⟨ht, hl, by rw [hw]; exact hlen⟩

/-- An iteration that leaves the loop makes no call and is a stop event. -/
theorem scan_iter_exit_facts (s : ScanState S) (e : ScanEvent S) (calls : List (Call S P))
    (h : scan_iter ssb_proc config samples_per_iter search_buffer_size s e = (calls, .exit)) :
    scan_stops config e ∧ calls = [] := by
  rcases scan_iter_cases ssb_proc config samples_per_iter search_buffer_size s e with
    ⟨hs, h'⟩ | ⟨_, _, h'⟩ | ⟨_, _, _, h'⟩ | ⟨_, _, _, _, h'⟩ | ⟨_, _, _, _, h'⟩
  · rw [h'] at h
    cases h
    exact ⟨hs, rfl⟩
  · rw [h'] at h
    cases h
  · rw [h'] at h
    cases h
  · rw [h'] at h
    cases h
  · rw [h'] at h
    cases h

end ScanTrace

section ScanLoopTrace

variable {S P : Type} (ssb_proc : SsbProcessor S P) (config : Config)
  (samples_per_iter search_buffer_size : Nat)

/-- Every detector invocation of the loop has the configured filter and the full window. -/
theorem scan_loop_scan_args (es : List (ScanEvent S)) (s : ScanState S)
    (hinv : ScanInv search_buffer_size s) (window : List S) (len : Nat)
    (target_pci : Option Nat)
    (hm : Call.scan window len target_pci ∈
      (scan_loop ssb_proc config samples_per_iter search_buffer_size s es).1) :
    target_pci = target_filter config ∧ len = search_buffer_size ∧
      window.length = search_buffer_size := by
  induction es generalizing s with
  | nil =>
    rw [scan_loop_nil] at hm
    cases hm
  | cons e es ih =>
    rcases hit : scan_iter ssb_proc config samples_per_iter search_buffer_size s e with
      ⟨c, step⟩
    cases step with
    | next s₁ =>
      rw [scan_loop_cons_next _ _ _ _ s s₁ e es c hit] at hm
      rcases List.mem_append.mp hm with hm | hm
      · exact (scan_iter_next_facts _ _ _ _ hinv e c hit).2.2.2 _ _ _ hm
      · exact ih s₁ (scan_iter_inv _ _ _ _ hinv e c hit) hm
    | exit =>
      rw [scan_loop_cons_exit _ _ _ _ s e es c hit] at hm
      rw [(scan_iter_exit_facts _ _ _ _ s e c hit).2] at hm
      cases hm
    | found r =>
      rw [scan_loop_cons_found _ _ _ _ s e es c r hit] at hm
      exact (scan_iter_found_facts _ _ _ _ hinv e c r hit).2.2.2.2 _ _ _ hm

/-- While the loop has not returned a match, the receiver is not stopped and no detector
invocation has reported a match. -/
theorem scan_loop_not_returned (es : List (ScanEvent S)) (s : ScanState S)
    (hinv : ScanInv search_buffer_size s) (calls : List (Call S P)) (ex : ScanExit S)
    (h : scan_loop ssb_proc config samples_per_iter search_buffer_size s es = (calls, ex))
    (hex : ∀ r, ex ≠ .returned r) :
    calls.countP Call.is_stop_rx = 0 ∧
      (scan_results ssb_proc calls).find? (fun r => r.found) = none := by
  induction es generalizing s calls with
  | nil =>
    rw [scan_loop_nil] at h
    cases h
    exact ⟨rfl, rfl⟩
  | cons e es ih =>
    rcases hit : scan_iter ssb_proc config samples_per_iter search_buffer_size s e with
      ⟨c, step⟩
    cases step with
    | next s₁ =>
      rw [scan_loop_cons_next _ _ _ _ s s₁ e es c hit] at h
      rcases hrest : scan_loop ssb_proc config samples_per_iter search_buffer_size s₁ es with
        ⟨c', ex'⟩
      rw [hrest] at h
      cases h
      have hf := scan_iter_next_facts _ _ _ _ hinv e c hit
      have hr := ih s₁ (scan_iter_inv _ _ _ _ hinv e c hit) c' hrest
      refine ⟨?_, ?_⟩
      · rw [List.countP_append, hf.2.1, hr.1]
      · rw [scan_results_append, List.find?_append, hf.2.2.1, hr.2]
        rfl
    | exit =>
      rw [scan_loop_cons_exit _ _ _ _ s e es c hit] at h
      cases h
      rw [(scan_iter_exit_facts _ _ _ _ s e calls hit).2]
      exact ⟨rfl, rfl⟩
    | found r =>
      rw [scan_loop_cons_found _ _ _ _ s e es c r hit] at h
      cases h
      exact absurd rfl (hex r)

/-- When the loop returns a match, the receiver has been stopped exactly once, by the last
call, and the result is that of the first detector invocation that reported a match. -/
theorem scan_loop_returned (es : List (ScanEvent S)) (s : ScanState S)
    (hinv : ScanInv search_buffer_size s) (calls : List (Call S P)) (r : SsbSearchResult)
    (h : scan_loop ssb_proc config samples_per_iter search_buffer_size s es =
      (calls, .returned r)) :
    calls.countP Call.is_stop_rx = 1 ∧ calls.getLast? = some .stop_rx ∧
      (scan_results ssb_proc calls).find? (fun r => r.found) = some r := by
  induction es generalizing s calls with
  | nil =>
    rw [scan_loop_nil] at h
    cases h
  | cons e es ih =>
    rcases hit : scan_iter ssb_proc config samples_per_iter search_buffer_size s e with
      ⟨c, step⟩
    cases step with
    | next s₁ =>
      rw [scan_loop_cons_next _ _ _ _ s s₁ e es c hit] at h
      rcases hrest : scan_loop ssb_proc config samples_per_iter search_buffer_size s₁ es with
        ⟨c', ex'⟩
      rw [hrest] at h
      cases h
      have hf := scan_iter_next_facts _ _ _ _ hinv e c hit
      have hr := ih s₁ (scan_iter_inv _ _ _ _ hinv e c hit) c' hrest
      refine ⟨?_, ?_, ?_⟩
      · rw [List.countP_append, hf.2.1, hr.1]
      · rw [List.getLast?_append, hr.2.1]
        rfl
      · rw [scan_results_append, List.find?_append, hf.2.2.1, hr.2.2]
        rfl
    | exit =>
      rw [scan_loop_cons_exit _ _ _ _ s e es c hit] at h
      cases h
    | found r' =>
      rw [scan_loop_cons_found _ _ _ _ s e es c r' hit] at h
      cases h
      have hf := scan_iter_found_facts _ _ _ _ hinv e calls r hit
      exact ⟨hf.2.1, hf.2.2.1, hf.2.2.2.1⟩

/-- A stop event among the events makes the loop exit. -/
theorem scan_loop_exits (es : List (ScanEvent S)) (s : ScanState S)
    (hstop : ∃ e ∈ es, scan_stops config e) (calls : List (Call S P)) (s' : ScanState S) :
    scan_loop ssb_proc config samples_per_iter search_buffer_size s es ≠
      (calls, .running s') := by
  induction es generalizing s calls with
  | nil =>
    rcases hstop with ⟨e, hm, _⟩
    cases hm
  | cons e es ih =>
    intro h
    rcases hit : scan_iter ssb_proc config samples_per_iter search_buffer_size s e with
      ⟨c, step⟩
    cases step with
    | next s₁ =>
      rw [scan_loop_cons_next _ _ _ _ s s₁ e es c hit] at h
      rcases hrest : scan_loop ssb_proc config samples_per_iter search_buffer_size s₁ es with
        ⟨c', ex'⟩
      rw [hrest] at h
      cases h
      rcases hstop with ⟨e', hm, hs⟩
      rcases List.mem_cons.mp hm with he | hm'
      · subst he
        rw [scan_iter_stop _ _ _ _ s e' hs] at hit
        cases hit
      · exact ih s₁ ⟨e', hm', hs⟩ c' hrest
    | exit =>
      rw [scan_loop_cons_exit _ _ _ _ s e es c hit] at h
      cases h
    | found r =>
      rw [scan_loop_cons_found _ _ _ _ s e es c r hit] at h
      cases h

theorem scan_prologue_facts :
    (scan_prologue samples_per_iter : List (Call S P)).countP Call.is_stop_rx = 0 ∧
    scan_results ssb_proc (scan_prologue samples_per_iter) = [] ∧
    ∀ window len target_pci,
      Call.scan window len target_pci ∉ (scan_prologue samples_per_iter : List (Call S P)) := by
  refine ⟨rfl, rfl, ?_⟩
  intro w l t hm
  simp [scan_prologue] at hm

end ScanLoopTrace

/-! ## `scan_for_ssb` by the way its loop ends -/

section ScanFunction

variable {S P : Type} [Zero S] (ssb_proc : SsbProcessor S P) (config : Config)
  (samples_per_iter search_buffer_size : Nat) (result : SsbSearchResult)

theorem scan_for_ssb_running (es : List (ScanEvent S)) (calls : List (Call S P))
    (s : ScanState S)
    (h : scan_loop ssb_proc config samples_per_iter search_buffer_size
      (scan_init search_buffer_size result) es = (calls, .running s)) :
    scan_for_ssb true ssb_proc config samples_per_iter search_buffer_size result es =
      { trace := scan_prologue samples_per_iter ++ calls, ret := none } := by
  simp [scan_for_ssb, h]

theorem scan_for_ssb_broke (es : List (ScanEvent S)) (calls : List (Call S P))
    (s : ScanState S)
    (h : scan_loop ssb_proc config samples_per_iter search_buffer_size
      (scan_init search_buffer_size result) es = (calls, .broke s)) :
    scan_for_ssb true ssb_proc config samples_per_iter search_buffer_size result es =
      { trace := scan_prologue samples_per_iter ++ calls ++ [.stop_rx],
        ret := some (false, s.result) } := by
  simp [scan_for_ssb, h]

theorem scan_for_ssb_returned (es : List (ScanEvent S)) (calls : List (Call S P))
    (r : SsbSearchResult)
    (h : scan_loop ssb_proc config samples_per_iter search_buffer_size
      (scan_init search_buffer_size result) es = (calls, .returned r)) :
    scan_for_ssb true ssb_proc config samples_per_iter search_buffer_size result es =
      { trace := scan_prologue samples_per_iter ++ calls, ret := some (true, r) } := by
  simp [scan_for_ssb, h]

theorem scan_for_ssb_start_failed (es : List (ScanEvent S)) :
    scan_for_ssb false ssb_proc config samples_per_iter search_buffer_size result es =
      { trace := [.start_rx], ret := some (false, result) } := by
  simp [scan_for_ssb]

end ScanFunction

/-! ## C9 and C10: what `scan_for_ssb` returns and how it stops the receiver -/

section ScanClaims

variable {S P : Type}

theorem find?_found_exists (l : List SsbSearchResult) :
    (∃ r, l.find? (fun r => r.found) = some r) ↔ ∃ r ∈ l, r.found = true := by
  rw [← List.find?_isSome, Option.isSome_iff_exists]

/-- C9: with an arbitrary detector, every detector invocation of `scan_for_ssb` receives the
configured target identity as filter when `scan_for_target` is set and no filter otherwise,
on a window of full length; `scan_for_ssb` returns found with result `r` exactly when `r` is the
result of the first invocation that reported found, so it returns found if and only if some
invocation reported found; and when the detector reports no match for any window and the
scan is cancelled or runs out of budget, it returns not-found. -/
theorem scan_returns_first_match [Zero S] (start_rx_ok : Bool) (ssb_proc : SsbProcessor S P)
    (config : Config) (samples_per_iter search_buffer_size : Nat) (result : SsbSearchResult)
    (events : List (ScanEvent S)) :
    (∀ window len target_pci,
      Call.scan window len target_pci ∈
          (scan_for_ssb start_rx_ok ssb_proc config samples_per_iter search_buffer_size result
            events).trace →
        target_pci =
          (if config.attack.scan_for_target = true then some config.attack.target_pci
            else none) ∧
        len = search_buffer_size ∧ window.length = search_buffer_size) ∧
    (∀ r,
      (scan_for_ssb start_rx_ok ssb_proc config samples_per_iter search_buffer_size result
          events).ret = some (true, r) ↔
        (scan_results ssb_proc
          (scan_for_ssb start_rx_ok ssb_proc config samples_per_iter search_buffer_size result
            events).trace).find? (fun r => r.found) = some r) ∧
    ((∃ r,
      (scan_for_ssb start_rx_ok ssb_proc config samples_per_iter search_buffer_size result
          events).ret = some (true, r)) ↔
        ∃ window len target_pci,
          Call.scan window len target_pci ∈
            (scan_for_ssb start_rx_ok ssb_proc config samples_per_iter search_buffer_size
              result events).trace ∧
          (ssb_proc.scan window len target_pci).found = true) ∧
    ((∀ window len target_pci, (ssb_proc.scan window len target_pci).found = false) →
      (∃ e ∈ events, scan_stops config e) →
        ∃ r,
          (scan_for_ssb start_rx_ok ssb_proc config samples_per_iter search_buffer_size result
            events).ret = some (false, r)) := by
  have hpro := scan_prologue_facts (S := S) ssb_proc samples_per_iter
  have hinit : ScanInv search_buffer_size (scan_init search_buffer_size result : ScanState S) :=
    scan_init_inv search_buffer_size result
  -- the first two parts and the last, by the way the loop ends
  have main : (∀ window len target_pci,
      Call.scan window len target_pci ∈
          (scan_for_ssb start_rx_ok ssb_proc config samples_per_iter search_buffer_size result
            events).trace →
        target_pci = target_filter config ∧
        len = search_buffer_size ∧ window.length = search_buffer_size) ∧
    (∀ r,
      (scan_for_ssb start_rx_ok ssb_proc config samples_per_iter search_buffer_size result
          events).ret = some (true, r) ↔
        (scan_results ssb_proc
          (scan_for_ssb start_rx_ok ssb_proc config samples_per_iter search_buffer_size result
            events).trace).find? (fun r => r.found) = some r) ∧
    ((∃ e ∈ events, scan_stops config e) →
      (∀ r, (scan_for_ssb start_rx_ok ssb_proc config samples_per_iter search_buffer_size
        result events).ret ≠ some (true, r)) →
        ∃ r,
          (scan_for_ssb start_rx_ok ssb_proc config samples_per_iter search_buffer_size result
            events).ret = some (false, r)) := by
    cases start_rx_ok with
    | false =>
      rw [scan_for_ssb_start_failed]
      refine ⟨?_, ?_, ?_⟩
      · intro w l t hm
        simp at hm
      · intro r
        simp [scan_results]
      · intro _ _
        exact ⟨result, rfl⟩
    | true =>
      rcases hloop : scan_loop ssb_proc config samples_per_iter search_buffer_size
        (scan_init search_buffer_size result) events with ⟨c, ex⟩
      have hargs := scan_loop_scan_args ssb_proc config samples_per_iter search_buffer_size
        events _ hinit
      rw [hloop] at hargs
      cases ex with
      | running s =>
        rw [scan_for_ssb_running _ _ _ _ _ events c s hloop]
        have hnr := scan_loop_not_returned _ _ _ _ events _ hinit c _ hloop (by intro r h; cases h)
        refine ⟨?_, ?_, ?_⟩
        · intro w l t hm
          rcases List.mem_append.mp hm with hm | hm
          · exact absurd hm (hpro.2.2 w l t)
          · exact hargs w l t hm
        · intro r
          simp [scan_results_append, hpro.2.1, hnr.2]
        · intro hstop _
          exact absurd hloop (scan_loop_exits _ _ _ _ events _ hstop c s)
      | broke s =>
        rw [scan_for_ssb_broke _ _ _ _ _ events c s hloop]
        have hnr := scan_loop_not_returned _ _ _ _ events _ hinit c _ hloop (by intro r h; cases h)
        refine ⟨?_, ?_, ?_⟩
        · intro w l t hm
          rcases List.mem_append.mp hm with hm | hm
          · rcases List.mem_append.mp hm with hm | hm
            · exact absurd hm (hpro.2.2 w l t)
            · exact hargs w l t hm
          · simp at hm
        · intro r
          simp [scan_results_append, hpro.2.1, hnr.2, scan_results]
        · intro _ _
          exact ⟨s.result, rfl⟩
      | returned r₀ =>
        rw [scan_for_ssb_returned _ _ _ _ _ events c r₀ hloop]
        have hr := scan_loop_returned _ _ _ _ events _ hinit c r₀ hloop
        refine ⟨?_, ?_, ?_⟩
        · intro w l t hm
          rcases List.mem_append.mp hm with hm | hm
          · exact absurd hm (hpro.2.2 w l t)
          · exact hargs w l t hm
        · intro r
          simp [scan_results_append, hpro.2.1, hr.2.2]
        · intro _ hne
          exact absurd rfl (hne r₀)
  have hfound : (∃ r,
      (scan_for_ssb start_rx_ok ssb_proc config samples_per_iter search_buffer_size result
          events).ret = some (true, r)) ↔
        ∃ window len target_pci,
          Call.scan window len target_pci ∈
            (scan_for_ssb start_rx_ok ssb_proc config samples_per_iter search_buffer_size
              result events).trace ∧
          (ssb_proc.scan window len target_pci).found = true := by
    constructor
    · rintro ⟨r, hr⟩
      rcases (find?_found_exists _).mp ⟨r, (main.2.1 r).mp hr⟩ with ⟨x, hx, hxf⟩
      rcases (mem_scan_results ssb_proc _ x).mp hx with ⟨w, l, t, hm, he⟩
      exact ⟨w, l, t, hm, by rw [he]; exact hxf⟩
    · rintro ⟨w, l, t, hm, hf⟩
      rcases (find?_found_exists _).mpr
        ⟨_, (mem_scan_results ssb_proc _ _).mpr ⟨w, l, t, hm, rfl⟩, hf⟩ with ⟨r, hr⟩
      exact ⟨r, (main.2.1 r).mpr hr⟩
  refine ⟨main.1, main.2.1, hfound, ?_⟩
  intro hnone hstop
  apply main.2.2 hstop
  intro r hr
  rcases hfound.mp ⟨r, hr⟩ with ⟨w, l, t, _, hf⟩
  rw [hnone w l t] at hf
  cases hf

/-- Witness of C9: with the filter set to cell 1, the second chunk fills the window of
capacity 4, the one detector invocation receives the filter and the full window and reports
found, and the scan returns found with that result; with a detector that never reports a
match, the same run, cancelled after the filled window, returns not-found. -/
theorem scan_returns_first_match_witness :
    (scan_for_ssb true (demo_proc true) (demo_config true) 3 4 (demo_result false)
        [demo_event true 0 3, demo_event true 0 3]).trace =
      scan_prologue 3 ++
        [.receive 3, .receive 3, .scan [(1, 0), (1, 0), (1, 0), (1, 0)] 4 (some 1),
          .stop_rx] ∧
    ((some 1 : Option Nat) =
        (if (demo_config true).attack.scan_for_target = true
          then some (demo_config true).attack.target_pci else none) ∧
      4 = 4 ∧ [((1 : ℚ), (0 : ℚ)), (1, 0), (1, 0), (1, 0)].length = 4) ∧
    (scan_for_ssb true (demo_proc true) (demo_config true) 3 4 (demo_result false)
        [demo_event true 0 3, demo_event true 0 3]).ret = some (true, demo_result true) ∧
    (scan_for_ssb true (demo_proc false) (demo_config true) 3 4 (demo_result false)
        [demo_event true 0 3, demo_event true 0 3, demo_event false 0 0]).trace.countP
      Call.is_scan = 1 ∧
    ∃ r, (scan_for_ssb true (demo_proc false) (demo_config true) 3 4 (demo_result false)
      [demo_event true 0 3, demo_event true 0 3, demo_event false 0 0]).ret =
        some (false, r) := by
  have htrace : (scan_for_ssb true (demo_proc true) (demo_config true) 3 4 (demo_result false)
      [demo_event true 0 3, demo_event true 0 3]).trace =
      scan_prologue 3 ++
        [.receive 3, .receive 3, .scan [(1, 0), (1, 0), (1, 0), (1, 0)] 4 (some 1),
          .stop_rx] := by
    rfl
  have hmem : Call.scan [((1 : ℚ), (0 : ℚ)), (1, 0), (1, 0), (1, 0)] 4 (some 1) ∈
      (scan_for_ssb true (demo_proc true) (demo_config true) 3 4 (demo_result false)
        [demo_event true 0 3, demo_event true 0 3]).trace := by
    rw [htrace]
    simp
  have hfound := scan_returns_first_match true (demo_proc true) (demo_config true) 3 4
    (demo_result false) [demo_event true 0 3, demo_event true 0 3]
  exact ⟨htrace, hfound.1 _ _ _ hmem, (hfound.2.1 (demo_result true)).mpr (by rfl), by rfl,
    (scan_returns_first_match true (demo_proc false) (demo_config true) 3 4
      (demo_result false)
      [demo_event true 0 3, demo_event true 0 3, demo_event false 0 0]).2.2.2
      (fun _ _ _ => rfl) ⟨demo_event false 0 0, by simp, Or.inl rfl⟩⟩

/-- When the scan loop reaches a stop event, the only further call is `stop_rx` and the
function returns not-found. -/
theorem scan_for_ssb_stop_event [Zero S] (ssb_proc : SsbProcessor S P)
    (config : Config) (samples_per_iter search_buffer_size : Nat) (result : SsbSearchResult)
    (events pre : List (ScanEvent S)) (e : ScanEvent S) (post : List (ScanEvent S))
    (hev : events = pre ++ e :: post) (hstop : scan_stops config e)
    (hpre : (scan_for_ssb true ssb_proc config samples_per_iter search_buffer_size result
      pre).ret = none) :
    (scan_for_ssb true ssb_proc config samples_per_iter search_buffer_size result
        events).trace =
      (scan_for_ssb true ssb_proc config samples_per_iter search_buffer_size result
        pre).trace ++ [.stop_rx] ∧
    ∃ r, (scan_for_ssb true ssb_proc config samples_per_iter search_buffer_size result
      events).ret = some (false, r) := by
  rcases hloop : scan_loop ssb_proc config samples_per_iter search_buffer_size
    (scan_init search_buffer_size result) pre with ⟨c, ex⟩
  cases ex with
  | running s =>
    have hall : scan_loop ssb_proc config samples_per_iter search_buffer_size
        (scan_init search_buffer_size result) events = (c ++ [], .broke s) := by
      rw [hev, scan_loop_append_running _ _ _ _ pre (e :: post) _ s c hloop,
        scan_loop_cons_exit _ _ _ _ s e post [] (scan_iter_stop _ _ _ _ s e hstop)]
    rw [List.append_nil] at hall
    rw [scan_for_ssb_broke _ _ _ _ _ events c s hall,
      scan_for_ssb_running _ _ _ _ _ pre c s hloop]
    exact ⟨rfl, s.result, rfl⟩
  | broke s =>
    rw [scan_for_ssb_broke _ _ _ _ _ pre c s hloop] at hpre
    cases hpre
  | returned r₀ =>
    rw [scan_for_ssb_returned _ _ _ _ _ pre c r₀ hloop] at hpre
    cases hpre

/-- C10: a terminating execution of `scan_for_ssb` in which `start_rx` succeeded calls
`stop_rx` exactly once, as its last call; and when the loop reaches an iteration at which
the cancellation flag is observed or the elapsed time exceeds the budget, the only further
call is `stop_rx` and the function returns not-found. -/
theorem scan_stops_receiver_exactly_once [Zero S] (ssb_proc : SsbProcessor S P)
    (config : Config) (samples_per_iter search_buffer_size : Nat) (result : SsbSearchResult)
    (events : List (ScanEvent S)) :
    ((scan_for_ssb true ssb_proc config samples_per_iter search_buffer_size result
        events).ret.isSome = true →
      (scan_for_ssb true ssb_proc config samples_per_iter search_buffer_size result
        events).trace.countP Call.is_stop_rx = 1 ∧
      (scan_for_ssb true ssb_proc config samples_per_iter search_buffer_size result
        events).trace.getLast? = some .stop_rx) ∧
    (∀ pre e post, events = pre ++ e :: post →
      (e.running = false ∨ e.elapsed_sec > config.operation.scan_duration_sec) →
      (scan_for_ssb true ssb_proc config samples_per_iter search_buffer_size result pre).ret =
        none →
      (scan_for_ssb true ssb_proc config samples_per_iter search_buffer_size result
        events).trace =
        (scan_for_ssb true ssb_proc config samples_per_iter search_buffer_size result
          pre).trace ++ [.stop_rx] ∧
      ∃ r, (scan_for_ssb true ssb_proc config samples_per_iter search_buffer_size result
        events).ret = some (false, r)) := by
  have hpro := scan_prologue_facts (S := S) ssb_proc samples_per_iter
  have hinit : ScanInv search_buffer_size (scan_init search_buffer_size result : ScanState S) :=
    scan_init_inv search_buffer_size result
  constructor
  · rcases hloop : scan_loop ssb_proc config samples_per_iter search_buffer_size
      (scan_init search_buffer_size result) events with ⟨c, ex⟩
    cases ex with
    | running s =>
      rw [scan_for_ssb_running _ _ _ _ _ events c s hloop]
      intro h
      cases h
    | broke s =>
      rw [scan_for_ssb_broke _ _ _ _ _ events c s hloop]
      have hnr := scan_loop_not_returned _ _ _ _ events _ hinit c _ hloop (by intro r h; cases h)
      intro _
      refine ⟨?_, List.getLast?_concat _⟩
      show List.countP Call.is_stop_rx (scan_prologue samples_per_iter ++ c ++ [.stop_rx]) = 1
      rw [List.countP_append, List.countP_append, hpro.1, hnr.1]
      rfl
    | returned r₀ =>
      rw [scan_for_ssb_returned _ _ _ _ _ events c r₀ hloop]
      have hr := scan_loop_returned _ _ _ _ events _ hinit c r₀ hloop
      intro _
      refine ⟨?_, ?_⟩
      · show List.countP Call.is_stop_rx (scan_prologue samples_per_iter ++ c) = 1
        rw [List.countP_append, hpro.1, hr.1]
      · show (scan_prologue samples_per_iter ++ c).getLast? = some .stop_rx
        rw [List.getLast?_append, hr.2.1]
        rfl
  · intro pre e post hev hstop hpre
    exact scan_for_ssb_stop_event ssb_proc config samples_per_iter search_buffer_size result
      events pre e post hev hstop hpre

/-- Witness of C10: the scan budget of 5 seconds is exceeded at the second iteration. -/
theorem scan_stops_receiver_exactly_once_witness :
    (scan_for_ssb true (demo_proc false) (demo_config true) 3 4 (demo_result false)
        [demo_event true 0 3, demo_event true 6 3]).trace =
      (scan_for_ssb true (demo_proc false) (demo_config true) 3 4 (demo_result false)
        [demo_event true 0 3]).trace ++ [.stop_rx] ∧
    ∃ r, (scan_for_ssb true (demo_proc false) (demo_config true) 3 4 (demo_result false)
        [demo_event true 0 3, demo_event true 6 3]).ret = some (false, r) :=
  (scan_stops_receiver_exactly_once (demo_proc false) (demo_config true) 3 4
    (demo_result false) [demo_event true 0 3, demo_event true 6 3]).2
    [demo_event true 0 3] (demo_event true 6 3) [] rfl (Or.inr (by decide)) rfl

end ScanClaims

/-! ## The continuous-transmit loop -/

section TxLoop

variable {S P : Type} (tx_buffer : List S) (nsamples : Nat)

theorem tx_iter_cancelled (s : TxState) (e : TxEvent) (h : e.running = false) :
    (tx_iter tx_buffer nsamples s e : List (Call S P) × TxStep) = ([], .cancelled) := by
  unfold tx_iter
  rw [if_pos h]

theorem tx_iter_backoff (s : TxState) (e : TxEvent) (hr : e.running = true) (hn : e.nsent < 0)
    (hc : s.consecutive_errors + 1 < max_consecutive_errors) :
    (tx_iter tx_buffer nsamples s e : List (Call S P) × TxStep) =
      ([.transmit tx_buffer nsamples (s.tx_count == 0) false, .sleep_ms 100],
        .next { s with consecutive_errors := s.consecutive_errors + 1 }) := by
  unfold tx_iter
  rw [if_neg (by rw [hr]; exact Bool.noConfusion)]
  simp only [ge_iff_le]
  rw [if_pos hn, if_neg (not_le.mpr hc)]

theorem tx_iter_aborted (s : TxState) (e : TxEvent) (hr : e.running = true) (hn : e.nsent < 0)
    (hc : max_consecutive_errors ≤ s.consecutive_errors + 1) :
    (tx_iter tx_buffer nsamples s e : List (Call S P) × TxStep) =
      ([.transmit tx_buffer nsamples (s.tx_count == 0) false], .aborted) := by
  unfold tx_iter
  rw [if_neg (by rw [hr]; exact Bool.noConfusion)]
  simp only [ge_iff_le]
  rw [if_pos hn, if_pos hc]

theorem tx_iter_sent (s : TxState) (e : TxEvent) (hr : e.running = true) (hn : 0 ≤ e.nsent) :
    (tx_iter tx_buffer nsamples s e : List (Call S P) × TxStep) =
      ([.transmit tx_buffer nsamples (s.tx_count == 0) false],
        .next { tx_count := int_incr s.tx_count, consecutive_errors := 0 }) := by
  unfold tx_iter
  rw [if_neg (by rw [hr]; exact Bool.noConfusion)]
  simp only [ge_iff_le]
  rw [if_neg (not_lt.mpr hn)]

theorem tx_loop_nil (s : TxState) :
    (tx_loop tx_buffer nsamples s [] : List (Call S P) × TxExit) = ([], .running s) := rfl

theorem tx_loop_cons_next (s s' : TxState) (e : TxEvent) (es : List TxEvent)
    (calls : List (Call S P)) (h : tx_iter tx_buffer nsamples s e = (calls, .next s')) :
    tx_loop tx_buffer nsamples s (e :: es) =
      (calls ++ (tx_loop tx_buffer nsamples s' es : List (Call S P) × TxExit).1,
        (tx_loop tx_buffer nsamples s' es : List (Call S P) × TxExit).2) := by
  rw [tx_loop, h]

theorem tx_loop_cons_cancelled (s : TxState) (e : TxEvent) (es : List TxEvent)
    (calls : List (Call S P)) (h : tx_iter tx_buffer nsamples s e = (calls, .cancelled)) :
    tx_loop tx_buffer nsamples s (e :: es) = (calls, .cancelled s) := by
  rw [tx_loop, h]

theorem tx_loop_cons_aborted (s : TxState) (e : TxEvent) (es : List TxEvent)
    (calls : List (Call S P)) (h : tx_iter tx_buffer nsamples s e = (calls, .aborted)) :
    tx_loop tx_buffer nsamples s (e :: es) = (calls, .aborted s) := by
  rw [tx_loop, h]

/-- Running the loop over `es₁ ++ es₂`: when the loop is still running after `es₁`, it goes on
with `es₂` from the state reached. -/
theorem tx_loop_append_running (es₁ es₂ : List TxEvent) (s s' : TxState)
    (calls : List (Call S P))
    (h : tx_loop tx_buffer nsamples s es₁ = (calls, .running s')) :
    tx_loop tx_buffer nsamples s (es₁ ++ es₂) =
      (calls ++ (tx_loop tx_buffer nsamples s' es₂ : List (Call S P) × TxExit).1,
        (tx_loop tx_buffer nsamples s' es₂ : List (Call S P) × TxExit).2) := by
  induction es₁ generalizing s calls with
  | nil =>
    rw [tx_loop_nil] at h
    cases h
    rfl
  | cons e es ih =>
    rcases hit : (tx_iter tx_buffer nsamples s e : List (Call S P) × TxStep) with ⟨c, step⟩
    cases step with
    | next s₁ =>
      rw [tx_loop_cons_next _ _ s s₁ e es c hit] at h
      rw [List.cons_append, tx_loop_cons_next _ _ s s₁ e (es ++ es₂) c hit]
      rcases hrest : (tx_loop tx_buffer nsamples s₁ es : List (Call S P) × TxExit) with
        ⟨c', ex⟩
      rw [hrest] at h
      cases h
      rw [ih s₁ c' hrest, List.append_assoc]
    | cancelled =>
      rw [tx_loop_cons_cancelled _ _ s e es c hit] at h
      cases h
    | aborted =>
      rw [tx_loop_cons_aborted _ _ s e es c hit] at h
      cases h

/-- A loop that is still running after `es₁ ++ es₂` was still running after `es₁`. -/
theorem tx_loop_running_of_append (es₁ es₂ : List TxEvent) (s s' : TxState)
    (calls : List (Call S P))
    (h : tx_loop tx_buffer nsamples s (es₁ ++ es₂) = (calls, .running s')) :
    ∃ calls₁ s₁, tx_loop tx_buffer nsamples s es₁ = ((calls₁ : List (Call S P)), .running s₁) := by
  induction es₁ generalizing s calls with
  | nil => exact ⟨[], s, rfl⟩
  | cons e es ih =>
    rcases hit : (tx_iter tx_buffer nsamples s e : List (Call S P) × TxStep) with ⟨c, step⟩
    cases step with
    | next s₁ =>
      rw [List.cons_append, tx_loop_cons_next _ _ s s₁ e (es ++ es₂) c hit] at h
      rcases hrest : (tx_loop tx_buffer nsamples s₁ (es ++ es₂) : List (Call S P) × TxExit)
        with ⟨c', ex⟩
      rw [hrest] at h
      cases h
      rcases ih s₁ c' hrest with ⟨c₁, s₂, h₂⟩
      refine ⟨c ++ c₁, s₂, ?_⟩
      rw [tx_loop_cons_next _ _ s s₁ e es c hit, h₂]
    | cancelled =>
      rw [List.cons_append, tx_loop_cons_cancelled _ _ s e (es ++ es₂) c hit] at h
      cases h
    | aborted =>
      rw [List.cons_append, tx_loop_cons_aborted _ _ s e (es ++ es₂) c hit] at h
      cases h

end TxLoop

/-! ## Failure runs -/

theorem uncancelled_append (l₁ l₂ : List Int) :
    uncancelled (l₁ ++ l₂) = uncancelled l₁ ++ uncancelled l₂ := by
  simp [uncancelled]

theorem trailing_failures_nil : trailing_failures [] = 0 := rfl

theorem trailing_failures_concat (l : List Int) (n : Int) :
    trailing_failures (l ++ [n]) = if n < 0 then trailing_failures l + 1 else 0 := by
  unfold trailing_failures
  rw [List.reverse_append, List.reverse_singleton, List.singleton_append, List.takeWhile_cons]
  by_cases h : n < 0
  · simp [h]
  · simp [h]

theorem last_failed_iff (k : Nat) (l : List Int) : last_failed k l ↔ k ≤ trailing_failures l := by
  unfold last_failed trailing_failures
  constructor
  · rintro ⟨front, back, rfl, hlen, hneg⟩
    rw [List.reverse_append, List.takeWhile_append_of_pos, List.length_append,
      List.length_reverse, hlen]
    · exact Nat.le_add_right _ _
    · intro a ha
      exact decide_eq_true (hneg a (List.mem_reverse.mp ha))
  · intro hk
    have hsplit := List.takeWhile_append_dropWhile (fun n : Int => decide (n < 0)) l.reverse
    have hall : ∀ x ∈ List.takeWhile (fun n : Int => decide (n < 0)) l.reverse, x < 0 :=
      fun x hx => by
        have hp := List.mem_takeWhile_imp (p := fun n : Int => decide (n < 0)) hx
        exact of_decide_eq_true hp
    generalize List.takeWhile (fun n : Int => decide (n < 0)) l.reverse = tw at hsplit hall hk
    generalize List.dropWhile (fun n : Int => decide (n < 0)) l.reverse = dw at hsplit
    refine ⟨dw.reverse ++ (tw.drop k).reverse, (tw.take k).reverse, ?_, ?_, ?_⟩
    · rw [List.append_assoc, ← List.reverse_append, ← List.reverse_append, List.take_append_drop,
        hsplit, List.reverse_reverse]
    · rw [List.length_reverse, List.length_take]
      exact Nat.min_eq_left hk
    · intro n hn
      exact hall n (List.mem_of_mem_take (List.mem_reverse.mp hn))

/-! ## C7: the consecutive-error counter -/

section CounterClaims

variable {S P : Type} (tx_buffer : List S) (nsamples : Nat)

/-- The loop over a single event. -/
theorem tx_loop_singleton (s : TxState) (e : TxEvent) :
    (tx_loop tx_buffer nsamples s [e] : List (Call S P) × TxExit) =
      match (tx_iter tx_buffer nsamples s e : List (Call S P) × TxStep) with
      | (calls, .next s') => (calls, .running s')
      | (calls, .cancelled) => (calls, .cancelled s)
      | (calls, .aborted) => (calls, .aborted s) := by
  rcases hit : (tx_iter tx_buffer nsamples s e : List (Call S P) × TxStep) with ⟨c, step⟩
  cases step with
  | next s₁ => rw [tx_loop_cons_next _ _ s s₁ e [] c hit, tx_loop_nil, List.append_nil]
  | cancelled => rw [tx_loop_cons_cancelled _ _ s e [] c hit]
  | aborted => rw [tx_loop_cons_aborted _ _ s e [] c hit]

/-- At every loop head reached without cancellation the counter is the number of trailing
failures, below the ceiling. -/
theorem tx_loop_counter (outcomes : List Int) (calls : List (Call S P)) (s : TxState)
    (h : tx_loop tx_buffer nsamples { tx_count := 0, consecutive_errors := 0 }
      (uncancelled outcomes) = (calls, .running s)) :
    s.consecutive_errors = trailing_failures outcomes ∧
      s.consecutive_errors + 1 ≤ max_consecutive_errors := by
  induction outcomes using List.reverseRecOn generalizing calls s with
  | nil =>
    rw [uncancelled, List.map_nil, tx_loop_nil] at h
    cases h
    exact ⟨rfl, by decide⟩
  | append_singleton l n ih =>
    rw [uncancelled_append] at h
    rcases tx_loop_running_of_append _ _ _ _ _ _ _ h with ⟨c₁, s₁, h₁⟩
    have ih₁ := ih c₁ s₁ h₁
    rw [tx_loop_append_running _ _ _ _ _ s₁ c₁ h₁] at h
    have h₂ : (tx_loop tx_buffer nsamples s₁ (uncancelled [n]) :
        List (Call S P) × TxExit).2 = .running s := congrArg Prod.snd h
    have hun : uncancelled [n] = [{ running := true, nsent := n }] := rfl
    rw [hun, tx_loop_singleton] at h₂
    rw [trailing_failures_concat]
    by_cases hn : n < 0
    · rw [if_pos hn]
      by_cases hc : s₁.consecutive_errors + 1 < max_consecutive_errors
      · rw [tx_iter_backoff _ _ s₁ _ rfl hn hc] at h₂
        cases h₂
        exact ⟨by rw [← ih₁.1], hc⟩
      · rw [tx_iter_aborted _ _ s₁ _ rfl hn (not_lt.mp hc)] at h₂
        cases h₂
    · rw [if_neg hn]
      rw [tx_iter_sent _ _ s₁ _ rfl (not_lt.mp hn)] at h₂
      cases h₂
      exact ⟨rfl, by show 0 + 1 ≤ max_consecutive_errors; decide⟩

/-- A run of failures below the ceiling keeps the loop running and adds to the counter. -/
theorem tx_loop_failures (fails : List Int) (s : TxState) (hneg : ∀ n ∈ fails, n < 0)
    (hc : s.consecutive_errors + fails.length < max_consecutive_errors) :
    ∃ calls : List (Call S P),
      tx_loop tx_buffer nsamples s (uncancelled fails) =
        (calls, .running { s with consecutive_errors := s.consecutive_errors + fails.length }) := by
  induction fails generalizing s with
  | nil => exact ⟨[], rfl⟩
  | cons n fails ih =>
    have hn : n < 0 := hneg n (List.mem_cons_self n fails)
    rw [List.length_cons] at hc
    have hstep := tx_iter_backoff (P := P) tx_buffer nsamples s
      { running := true, nsent := n } rfl hn (by omega)
    rcases ih { s with consecutive_errors := s.consecutive_errors + 1 }
      (fun m hm => hneg m (List.mem_cons_of_mem n hm)) (by simp only; omega) with ⟨c, hrest⟩
    refine ⟨[.transmit tx_buffer nsamples (s.tx_count == 0) false, .sleep_ms 100] ++ c, ?_⟩
    have hun : uncancelled (n :: fails) = { running := true, nsent := n } :: uncancelled fails :=
      rfl
    rw [hun, tx_loop_cons_next _ _ s _ _ _ _ hstep, hrest]
    simp only [List.length_cons]
    congr 3
    omega

/-- C7: in the continuous-transmit loop with the cancellation flag never set, at the top of
every iteration reached the consecutive-error counter equals the number of immediately
preceding consecutive failed transmit calls and is at most 9; a successful transmit call
sets it to zero; the iteration aborts the loop if and only if its transmit call and the nine
calls before it all failed; and nine failures followed by one success, starting from a
counter of zero, leave the loop running with the counter at zero, its next iteration
beginning with a transmit call. -/
theorem tx_error_counter_tracks_failures (outcomes : List Int) (calls : List (Call S P))
    (s : TxState)
    (h : tx_loop tx_buffer nsamples { tx_count := 0, consecutive_errors := 0 }
      (uncancelled outcomes) = (calls, .running s)) :
    s.consecutive_errors = trailing_failures outcomes ∧
    s.consecutive_errors ≤ 9 ∧
    (∀ n : Int, 0 ≤ n →
      ∃ (c : List (Call S P)) (s' : TxState),
        tx_iter tx_buffer nsamples s { running := true, nsent := n } = (c, .next s') ∧
        s'.consecutive_errors = 0) ∧
    (∀ n : Int,
      (tx_iter tx_buffer nsamples s { running := true, nsent := n } :
        List (Call S P) × TxStep).2 = .aborted ↔ last_failed 10 (outcomes ++ [n])) ∧
    (∀ (fails : List Int) (ok : Int), s.consecutive_errors = 0 → fails.length = 9 →
      (∀ n ∈ fails, n < 0) → 0 ≤ ok →
      ∃ c : List (Call S P),
        tx_loop tx_buffer nsamples { tx_count := 0, consecutive_errors := 0 }
          (uncancelled (outcomes ++ fails ++ [ok])) =
            (c, .running { tx_count := int_incr s.tx_count, consecutive_errors := 0 }) ∧
        ∀ m : Int, ∃ rest : List (Call S P),
          (tx_iter tx_buffer nsamples { tx_count := int_incr s.tx_count, consecutive_errors := 0 }
            { running := true, nsent := m } : List (Call S P) × TxStep).1 =
            .transmit tx_buffer nsamples (int_incr s.tx_count == 0) false :: rest) := by
  have hinv := tx_loop_counter tx_buffer nsamples outcomes calls s h
  have hmax : max_consecutive_errors = 10 := rfl
  refine ⟨hinv.1, by omega, ?_, ?_, ?_⟩
  · intro n hn
    exact ⟨_, _, tx_iter_sent _ _ s _ rfl hn, rfl⟩
  · intro n
    rw [last_failed_iff, trailing_failures_concat, ← hinv.1]
    by_cases hn : n < 0
    · rw [if_pos hn]
      by_cases hc : s.consecutive_errors + 1 < max_consecutive_errors
      · rw [tx_iter_backoff _ _ s _ rfl hn hc]
        constructor
        · intro habs
          cases habs
        · intro hge
          omega
      · rw [tx_iter_aborted _ _ s _ rfl hn (not_lt.mp hc)]
        constructor
        · intro _
          omega
        · intro _
          rfl
    · rw [if_neg hn, tx_iter_sent _ _ s _ rfl (not_lt.mp hn)]
      constructor
      · intro habs
        cases habs
      · intro hge
        omega
  · intro fails ok hzero hlen hneg hok
    rcases tx_loop_failures (P := P) tx_buffer nsamples fails s hneg (by omega) with ⟨c₁, h₁⟩
    refine ⟨calls ++ (c₁ ++ [.transmit tx_buffer nsamples (s.tx_count == 0) false]), ?_, ?_⟩
    · rw [List.append_assoc, uncancelled_append, uncancelled_append,
        tx_loop_append_running _ _ _ _ _ s calls h,
        tx_loop_append_running _ _ _ _ _ _ c₁ h₁]
      have hun : uncancelled [ok] = [{ running := true, nsent := ok }] := rfl
      rw [hun, tx_loop_singleton, tx_iter_sent _ _ _ _ rfl hok]
    · intro m
      by_cases hm : m < 0
      · exact ⟨_, by
          rw [tx_iter_backoff (P := P) tx_buffer nsamples
            { tx_count := int_incr s.tx_count, consecutive_errors := 0 }
            { running := true, nsent := m } rfl hm
            (by show 0 + 1 < max_consecutive_errors; decide)]⟩
      · exact ⟨_, by
          rw [tx_iter_sent (P := P) tx_buffer nsamples
            { tx_count := int_incr s.tx_count, consecutive_errors := 0 }
            { running := true, nsent := m } rfl (not_lt.mp hm)]⟩

/-- Witness of C7: two failures followed by a success. -/
theorem tx_error_counter_tracks_failures_witness :
    (tx_loop [(1 : Nat), 2] 2 { tx_count := 0, consecutive_errors := 0 }
        (uncancelled [-1, -1, 5]) : List (Call Nat Unit) × TxExit) =
      ([.transmit [1, 2] 2 true false, .sleep_ms 100, .transmit [1, 2] 2 true false,
        .sleep_ms 100, .transmit [1, 2] 2 true false],
        .running { tx_count := 1, consecutive_errors := 0 }) ∧
    (0 : Nat) = trailing_failures [-1, -1, 5] ∧
    ((tx_iter [(1 : Nat), 2] 2 { tx_count := 1, consecutive_errors := 0 }
        { running := true, nsent := -1 } : List (Call Nat Unit) × TxStep).2 = .aborted ↔
      last_failed 10 ([-1, -1, 5] ++ [-1])) :=
  ⟨rfl,
    (tx_error_counter_tracks_failures (P := Unit) [(1 : Nat), 2] 2 [-1, -1, 5] _ _ rfl).1,
    (tx_error_counter_tracks_failures (P := Unit) [(1 : Nat), 2] 2 [-1, -1, 5] _ _
      rfl).2.2.2.1 (-1)⟩

end CounterClaims

/-! ## `transmit_spoofed_ssb` by stages -/

section TransmitStages

variable {F : Type} [Zero F] {P : Type}

/-- The three ways `transmit_spoofed_ssb` can go: encoding fails, synthesis yields no
sample, or the transmission stage runs on the normalized waveform. -/
theorem transmit_spoofed_ssb_cases (ops : FloatArith F) (start_tx_ok : Bool)
    (ssb_proc : SsbProcessor (F × F) P) (config : Config) (original_ssb : SsbSearchResult)
    (events : List TxEvent) :
    (ssb_proc.encode_mib (tampered_mib ssb_proc config original_ssb) original_ssb.ssb_idx
        original_ssb.mib.hrf = none ∧
      transmit_spoofed_ssb ops start_tx_ok ssb_proc config original_ssb events =
        { trace := [.modify_mib original_ssb.mib,
            .encode_mib (tampered_mib ssb_proc config original_ssb) original_ssb.ssb_idx
              original_ssb.mib.hrf],
          ret := some false }) ∨
    (∃ msg, ssb_proc.encode_mib (tampered_mib ssb_proc config original_ssb)
        original_ssb.ssb_idx original_ssb.mib.hrf = some msg ∧
      (generated ssb_proc original_ssb msg).2 = 0 ∧
      transmit_spoofed_ssb ops start_tx_ok ssb_proc config original_ssb events =
        { trace := generation_calls ssb_proc config original_ssb msg, ret := some false }) ∨
    (∃ msg, ssb_proc.encode_mib (tampered_mib ssb_proc config original_ssb)
        original_ssb.ssb_idx original_ssb.mib.hrf = some msg ∧
      (generated ssb_proc original_ssb msg).2 ≠ 0 ∧
      transmit_spoofed_ssb ops start_tx_ok ssb_proc config original_ssb events =
        { trace := generation_calls ssb_proc config original_ssb msg ++
            (transmit_stage start_tx_ok config
              (normalize_amplitude ops (generated ssb_proc original_ssb msg).1
                (generated ssb_proc original_ssb msg).2)
              (generated ssb_proc original_ssb msg).2 events : Outcome (F × F) P Bool).trace,
          ret := (transmit_stage start_tx_ok config
              (normalize_amplitude ops (generated ssb_proc original_ssb msg).1
                (generated ssb_proc original_ssb msg).2)
              (generated ssb_proc original_ssb msg).2 events : Outcome (F × F) P Bool).ret }) := by
  rcases henc : ssb_proc.encode_mib (tampered_mib ssb_proc config original_ssb)
      original_ssb.ssb_idx original_ssb.mib.hrf with _ | msg
  · left
    refine ⟨rfl, ?_⟩
    unfold tampered_mib at henc
    simp [transmit_spoofed_ssb, henc, tampered_mib]
  · right
    unfold tampered_mib at henc
    by_cases hgen : (generated ssb_proc original_ssb msg).2 = 0
    · left
      refine ⟨msg, rfl, hgen, ?_⟩
      unfold generated at hgen
      simp [transmit_spoofed_ssb, henc, hgen, generation_calls, tampered_mib]
    · right
      refine ⟨msg, rfl, hgen, ?_⟩
      unfold generated at hgen
      simp [transmit_spoofed_ssb, henc, hgen, generation_calls, tampered_mib, generated]

/-- The stage-three form of `transmit_spoofed_ssb` under its two conditions. -/
theorem transmit_spoofed_ssb_stage (ops : FloatArith F) (start_tx_ok : Bool)
    (ssb_proc : SsbProcessor (F × F) P) (config : Config) (original_ssb : SsbSearchResult)
    (events : List TxEvent) (msg : P)
    (henc : ssb_proc.encode_mib (tampered_mib ssb_proc config original_ssb)
      original_ssb.ssb_idx original_ssb.mib.hrf = some msg)
    (hgen : (generated ssb_proc original_ssb msg).2 ≠ 0) :
    transmit_spoofed_ssb ops start_tx_ok ssb_proc config original_ssb events =
      { trace := generation_calls ssb_proc config original_ssb msg ++
          (transmit_stage start_tx_ok config
            (normalize_amplitude ops (generated ssb_proc original_ssb msg).1
              (generated ssb_proc original_ssb msg).2)
            (generated ssb_proc original_ssb msg).2 events : Outcome (F × F) P Bool).trace,
        ret := (transmit_stage start_tx_ok config
            (normalize_amplitude ops (generated ssb_proc original_ssb msg).1
              (generated ssb_proc original_ssb msg).2)
            (generated ssb_proc original_ssb msg).2 events : Outcome (F × F) P Bool).ret } := by
  rcases transmit_spoofed_ssb_cases ops start_tx_ok ssb_proc config original_ssb events with
    ⟨hnone, _⟩ | ⟨msg', henc', hzero, _⟩ | ⟨msg', henc', _, h⟩
  · rw [henc] at hnone
    cases hnone
  · rw [henc] at henc'
    cases henc'
    exact absurd hzero hgen
  · rw [henc] at henc'
    cases henc'
    exact h

end TransmitStages

section TransmitStage

variable {S P : Type} (config : Config) (tx_buffer : List S) (nsamples : Nat)

/-- The continuous-transmit loop never stops the transmitter itself. -/
theorem tx_loop_no_stop_tx (es : List TxEvent) (s : TxState) :
    (tx_loop tx_buffer nsamples s es : List (Call S P) × TxExit).1.countP Call.is_stop_tx = 0 := by
  induction es generalizing s with
  | nil => rfl
  | cons e es ih =>
    by_cases hr : e.running = false
    · rw [tx_loop_cons_cancelled _ _ s e es _ (tx_iter_cancelled _ _ s e hr)]
      rfl
    · have hr' : e.running = true := by simpa using hr
      by_cases hn : e.nsent < 0
      · by_cases hc : s.consecutive_errors + 1 < max_consecutive_errors
        · rw [tx_loop_cons_next _ _ s _ e es _ (tx_iter_backoff _ _ s e hr' hn hc),
            List.countP_append, ih]
          rfl
        · rw [tx_loop_cons_aborted _ _ s e es _
            (tx_iter_aborted _ _ s e hr' hn (not_lt.mp hc))]
          rfl
      · rw [tx_loop_cons_next _ _ s _ e es _ (tx_iter_sent _ _ s e hr' (not_lt.mp hn)),
          List.countP_append, ih]
        rfl

theorem transmit_stage_running (es : List TxEvent) (calls : List (Call S P)) (s : TxState)
    (hcont : config.attack.continuous_tx = true)
    (h : tx_loop tx_buffer nsamples { tx_count := 0, consecutive_errors := 0 } es =
      (calls, .running s)) :
    transmit_stage true config tx_buffer nsamples es =
      { trace := [.start_tx] ++ calls, ret := none } := by
  simp [transmit_stage, hcont, h]

theorem transmit_stage_cancelled (es : List TxEvent) (calls : List (Call S P)) (s : TxState)
    (hcont : config.attack.continuous_tx = true)
    (h : tx_loop tx_buffer nsamples { tx_count := 0, consecutive_errors := 0 } es =
      (calls, .cancelled s)) :
    transmit_stage true config tx_buffer nsamples es =
      { trace := [.start_tx] ++ calls ++ [.stop_tx], ret := some true } := by
  simp [transmit_stage, hcont, h]

theorem transmit_stage_aborted (es : List TxEvent) (calls : List (Call S P)) (s : TxState)
    (hcont : config.attack.continuous_tx = true)
    (h : tx_loop tx_buffer nsamples { tx_count := 0, consecutive_errors := 0 } es =
      (calls, .aborted s)) :
    transmit_stage true config tx_buffer nsamples es =
      { trace := [.start_tx] ++ calls ++ [.stop_tx], ret := some true } := by
  simp [transmit_stage, hcont, h]

theorem transmit_stage_single_failed (e : TxEvent) (es : List TxEvent)
    (hcont : config.attack.continuous_tx = false) (hn : e.nsent < 0) :
    (transmit_stage true config tx_buffer nsamples (e :: es) : Outcome S P Bool) =
      { trace := [.start_tx, .transmit tx_buffer nsamples true true], ret := some false } := by
  simp [transmit_stage, hcont, hn]

theorem transmit_stage_single_sent (e : TxEvent) (es : List TxEvent)
    (hcont : config.attack.continuous_tx = false) (hn : 0 ≤ e.nsent) :
    (transmit_stage true config tx_buffer nsamples (e :: es) : Outcome S P Bool) =
      { trace := [.start_tx, .transmit tx_buffer nsamples true true, .stop_tx],
        ret := some true } := by
  simp [transmit_stage, hcont, not_lt.mpr hn]

theorem transmit_stage_start_failed (es : List TxEvent) :
    (transmit_stage false config tx_buffer nsamples es : Outcome S P Bool) =
      { trace := [.start_tx], ret := some false } := by
  simp [transmit_stage]

end TransmitStage

/-! ## C1 and C2: the exits of the transmission stage -/

section TransmitClaims

variable {F : Type} [Zero F] {P : Type}

/-- A run of failures that reaches the ceiling aborts the loop at its last call. -/
theorem tx_loop_abort {S : Type} (tx_buffer : List S) (nsamples : Nat) (fails : List Int)
    (rest : List TxEvent) (s : TxState) (hne : fails ≠ []) (hneg : ∀ n ∈ fails, n < 0)
    (hc : s.consecutive_errors + fails.length = max_consecutive_errors) :
    ∃ calls : List (Call S P),
      tx_loop tx_buffer nsamples s (uncancelled fails ++ rest) =
        (calls, .aborted { tx_count := s.tx_count, consecutive_errors := 9 }) := by
  induction fails generalizing s with
  | nil => exact absurd rfl hne
  | cons n fails ih =>
    have hn : n < 0 := hneg n (List.mem_cons_self n fails)
    have hmax : max_consecutive_errors = 10 := rfl
    rw [List.length_cons] at hc
    have hun : uncancelled (n :: fails) ++ rest =
        { running := true, nsent := n } :: (uncancelled fails ++ rest) := rfl
    rw [hun]
    by_cases hnil : fails = []
    · subst hnil
      have h9 : s.consecutive_errors = 9 := by
        simp only [List.length_nil] at hc
        omega
      refine ⟨[.transmit tx_buffer nsamples (s.tx_count == 0) false], ?_⟩
      rw [tx_loop_cons_aborted _ _ s _ _ _
        (tx_iter_aborted _ _ s _ rfl hn (by omega))]
      cases s
      simp only at h9
      rw [h9]
    · have hstep := tx_iter_backoff (P := P) tx_buffer nsamples s
        { running := true, nsent := n } rfl hn (by
          have : 0 < fails.length := List.length_pos.mpr hnil
          omega)
      rcases ih { s with consecutive_errors := s.consecutive_errors + 1 } hnil
        (fun m hm => hneg m (List.mem_cons_of_mem n hm)) (by simp only; omega) with ⟨c, hrest⟩
      refine ⟨[.transmit tx_buffer nsamples (s.tx_count == 0) false, .sleep_ms 100] ++ c, ?_⟩
      rw [tx_loop_cons_next _ _ s _ _ _ _ hstep, hrest]

/-- C1 (what the code does): in continuous mode, when the first ten transmit calls fail,
the loop is left at the error ceiling, and `transmit_spoofed_ssb` then stops the transmitter
and returns `true`, so that `main` completes with status 0. -/
theorem continuous_abort_returns_success (ops : FloatArith F) (ssb_proc : SsbProcessor (F × F) P)
    (env : MainEnv F) (config : Config) (original_ssb : SsbSearchResult) (msg : P)
    (fails : List Int) (rest : List TxEvent)
    (hcfg : env.config = some config) (hrf : env.rf_init_ok = true)
    (hssb : env.ssb_init_ok = true)
    (hscan : (scan_for_ssb env.start_rx_ok ssb_proc config env.samples_per_iter
      env.search_buffer_size env.ssb_result env.scan_events).ret = some (true, original_ssb))
    (hcont : config.attack.continuous_tx = true) (htx : env.start_tx_ok = true)
    (henc : ssb_proc.encode_mib (tampered_mib ssb_proc config original_ssb)
      original_ssb.ssb_idx original_ssb.mib.hrf = some msg)
    (hgen : (generated ssb_proc original_ssb msg).2 ≠ 0)
    (hlen : fails.length = 10) (hneg : ∀ n ∈ fails, n < 0)
    (hev : env.tx_events = uncancelled fails ++ rest) :
    (∃ calls : List (Call (F × F) P),
      tx_loop (normalize_amplitude ops (generated ssb_proc original_ssb msg).1
          (generated ssb_proc original_ssb msg).2)
        (generated ssb_proc original_ssb msg).2 { tx_count := 0, consecutive_errors := 0 }
        env.tx_events = (calls, .aborted { tx_count := 0, consecutive_errors := 9 })) ∧
    (transmit_spoofed_ssb ops env.start_tx_ok ssb_proc config original_ssb
      env.tx_events).trace.getLast? = some .stop_tx ∧
    (transmit_spoofed_ssb ops env.start_tx_ok ssb_proc config original_ssb env.tx_events).ret =
      some true ∧
    (main ops ssb_proc env).ret = some 0 := by
  have hne : fails ≠ [] := by
    intro h
    rw [h] at hlen
    cases hlen
  rcases tx_loop_abort (P := P)
    (normalize_amplitude ops (generated ssb_proc original_ssb msg).1
      (generated ssb_proc original_ssb msg).2)
    (generated ssb_proc original_ssb msg).2 fails rest
    { tx_count := 0, consecutive_errors := 0 } hne hneg (by rw [hlen]; rfl) with ⟨c, hloop⟩
  rw [← hev] at hloop
  have hstage := transmit_stage_aborted config _ _ env.tx_events c _ hcont hloop
  have hall := transmit_spoofed_ssb_stage ops env.start_tx_ok ssb_proc config original_ssb
    env.tx_events msg henc hgen
  rw [htx, hstage] at hall
  rw [htx]
  have hret : (transmit_spoofed_ssb ops true ssb_proc config original_ssb env.tx_events).ret =
      some true := by rw [hall]
  refine ⟨⟨c, hloop⟩, ?_, hret, ?_⟩
  · rw [hall]
    show (generation_calls ssb_proc config original_ssb msg ++
      ([Call.start_tx] ++ c ++ [Call.stop_tx])).getLast? = some .stop_tx
    rw [← List.append_assoc, List.getLast?_concat]
  · simp [main, hcfg, hrf, hssb, hscan, htx, hret]

/-- Witness of the C1 evaluation: a detection at the second chunk, then ten failed transmit
calls. -/
theorem continuous_abort_returns_success_witness :
    (transmit_spoofed_ssb demo_arith true (demo_proc true) (demo_config true) (demo_result true)
      (uncancelled [-1, -1, -1, -1, -1, -1, -1, -1, -1, -1])).ret = some true ∧
    (main demo_arith (demo_proc true)
      (demo_env [demo_event true 0 3, demo_event true 0 3]
        (uncancelled [-1, -1, -1, -1, -1, -1, -1, -1, -1, -1]) true)).ret = some 0 :=
  (continuous_abort_returns_success demo_arith (demo_proc true)
    (demo_env [demo_event true 0 3, demo_event true 0 3]
      (uncancelled [-1, -1, -1, -1, -1, -1, -1, -1, -1, -1]) true)
    (demo_config true) (demo_result true) () [-1, -1, -1, -1, -1, -1, -1, -1, -1, -1] []
    rfl rfl rfl (by rfl) rfl rfl rfl (by decide) rfl (by decide) rfl).2.2

end TransmitClaims

section StopTxClaims

variable {F : Type} [Zero F] {P : Type}

/-- C2 (what the code does): once the TX stream is started, `transmit_spoofed_ssb` calls
`stop_tx` exactly once, as its last call, whenever continuous mode returns and when the
single-shot transmit call succeeds; when the single-shot transmit call fails it returns
`false` without any `stop_tx` call. -/
theorem stop_tx_on_exit_paths (ops : FloatArith F) (ssb_proc : SsbProcessor (F × F) P)
    (config : Config) (original_ssb : SsbSearchResult) (msg : P) (events : List TxEvent)
    (henc : ssb_proc.encode_mib (tampered_mib ssb_proc config original_ssb)
      original_ssb.ssb_idx original_ssb.mib.hrf = some msg)
    (hgen : (generated ssb_proc original_ssb msg).2 ≠ 0) :
    (config.attack.continuous_tx = true →
      (transmit_spoofed_ssb ops true ssb_proc config original_ssb events).ret.isSome = true →
      (transmit_spoofed_ssb ops true ssb_proc config original_ssb events).trace.countP
          Call.is_stop_tx = 1 ∧
      (transmit_spoofed_ssb ops true ssb_proc config original_ssb events).trace.getLast? =
        some .stop_tx) ∧
    (config.attack.continuous_tx = false → ∀ e rest, events = e :: rest → 0 ≤ e.nsent →
      (transmit_spoofed_ssb ops true ssb_proc config original_ssb events).ret = some true ∧
      (transmit_spoofed_ssb ops true ssb_proc config original_ssb events).trace.countP
          Call.is_stop_tx = 1 ∧
      (transmit_spoofed_ssb ops true ssb_proc config original_ssb events).trace.getLast? =
        some .stop_tx) ∧
    (config.attack.continuous_tx = false → ∀ e rest, events = e :: rest → e.nsent < 0 →
      (transmit_spoofed_ssb ops true ssb_proc config original_ssb events).ret = some false ∧
      Call.start_tx ∈
        (transmit_spoofed_ssb ops true ssb_proc config original_ssb events).trace ∧
      (transmit_spoofed_ssb ops true ssb_proc config original_ssb events).trace.countP
          Call.is_stop_tx = 0) := by
  have hall := transmit_spoofed_ssb_stage ops true ssb_proc config original_ssb events msg
    henc hgen
  have hgc : (generation_calls ssb_proc config original_ssb msg).countP Call.is_stop_tx = 0 :=
    rfl
  refine ⟨?_, ?_, ?_⟩
  · intro hcont
    rcases hloop : (tx_loop (normalize_amplitude ops (generated ssb_proc original_ssb msg).1
        (generated ssb_proc original_ssb msg).2) (generated ssb_proc original_ssb msg).2
        { tx_count := 0, consecutive_errors := 0 } events : List (Call (F × F) P) × TxExit)
      with ⟨c, ex⟩
    have hc : c.countP Call.is_stop_tx = 0 := by
      have := tx_loop_no_stop_tx (P := P)
        (normalize_amplitude ops (generated ssb_proc original_ssb msg).1
          (generated ssb_proc original_ssb msg).2) (generated ssb_proc original_ssb msg).2
        events { tx_count := 0, consecutive_errors := 0 }
      rw [hloop] at this
      exact this
    have hcount : (generation_calls ssb_proc config original_ssb msg ++
        ([Call.start_tx] ++ c ++ [Call.stop_tx])).countP Call.is_stop_tx = 1 := by
      rw [List.countP_append, List.countP_append, List.countP_append, hgc, hc]
      rfl
    have hlast : (generation_calls ssb_proc config original_ssb msg ++
        ([Call.start_tx] ++ c ++ [Call.stop_tx])).getLast? = some .stop_tx := by
      rw [← List.append_assoc, List.getLast?_concat]
    cases ex with
    | running s₁ =>
      rw [transmit_stage_running config _ _ events c s₁ hcont hloop] at hall
      rw [hall]
      intro h
      cases h
    | cancelled s₁ =>
      rw [transmit_stage_cancelled config _ _ events c s₁ hcont hloop] at hall
      rw [hall]
      intro _
      exact ⟨hcount, hlast⟩
    | aborted s₁ =>
      rw [transmit_stage_aborted config _ _ events c s₁ hcont hloop] at hall
      rw [hall]
      intro _
      exact ⟨hcount, hlast⟩
  · intro hcont e rest hev hn
    rw [hev, transmit_stage_single_sent config _ _ e rest hcont hn] at hall
    rw [← hev] at hall
    rw [hall]
    refine ⟨rfl, ?_, ?_⟩
    · show (generation_calls ssb_proc config original_ssb msg ++ _).countP Call.is_stop_tx = 1
      rw [List.countP_append, hgc]
      rfl
    · show (generation_calls ssb_proc config original_ssb msg ++ _).getLast? = some .stop_tx
      rw [List.getLast?_append]
      rfl
  · intro hcont e rest hev hn
    rw [hev, transmit_stage_single_failed config _ _ e rest hcont hn] at hall
    rw [← hev] at hall
    rw [hall]
    refine ⟨rfl, ?_, ?_⟩
    · show Call.start_tx ∈ generation_calls ssb_proc config original_ssb msg ++ _
      simp
    · show (generation_calls ssb_proc config original_ssb msg ++ _).countP Call.is_stop_tx = 0
      rw [List.countP_append, hgc]
      rfl

/-- Witness of the C2 evaluation: single-shot mode, the transmit call returns `-1`. -/
theorem stop_tx_on_exit_paths_witness :
    (transmit_spoofed_ssb demo_arith true (demo_proc true) (demo_config false)
      (demo_result true) [{ running := true, nsent := -1 }]).ret = some false ∧
    Call.start_tx ∈
      (transmit_spoofed_ssb demo_arith true (demo_proc true) (demo_config false)
        (demo_result true) [{ running := true, nsent := -1 }]).trace ∧
    (transmit_spoofed_ssb demo_arith true (demo_proc true) (demo_config false)
      (demo_result true) [{ running := true, nsent := -1 }]).trace.countP
        Call.is_stop_tx = 0 :=
  (stop_tx_on_exit_paths demo_arith (demo_proc true) (demo_config false) (demo_result true) ()
    [{ running := true, nsent := -1 }] rfl (by decide)).2.2 rfl
    { running := true, nsent := -1 } [] rfl (by decide)

end StopTxClaims

/-! ## C8: the fields of the original detection result -/

section OriginalFieldClaims

variable {F : Type} [Zero F] {P : Type}

theorem tx_loop_no_engine_call {S : Type} (tx_buffer : List S) (nsamples : Nat)
    (es : List TxEvent) (s : TxState) (c : Call S P)
    (hm : c ∈ (tx_loop tx_buffer nsamples s es : List (Call S P) × TxExit).1) :
    c.is_engine = false := by
  induction es generalizing s with
  | nil =>
    rw [tx_loop_nil] at hm
    cases hm
  | cons e es ih =>
    by_cases hr : e.running = false
    · rw [tx_loop_cons_cancelled _ _ s e es _ (tx_iter_cancelled _ _ s e hr)] at hm
      cases hm
    · have hr' : e.running = true := by simpa using hr
      by_cases hn : e.nsent < 0
      · by_cases hc : s.consecutive_errors + 1 < max_consecutive_errors
        · rw [tx_loop_cons_next _ _ s _ e es _ (tx_iter_backoff _ _ s e hr' hn hc)] at hm
          rcases List.mem_append.mp hm with hm | hm
          · simp at hm
            rcases hm with rfl | rfl <;> rfl
          · exact ih _ hm
        · rw [tx_loop_cons_aborted _ _ s e es _
            (tx_iter_aborted _ _ s e hr' hn (not_lt.mp hc))] at hm
          simp at hm
          rw [hm]
          rfl
      · rw [tx_loop_cons_next _ _ s _ e es _ (tx_iter_sent _ _ s e hr' (not_lt.mp hn))] at hm
        rcases List.mem_append.mp hm with hm | hm
        · simp at hm
          rw [hm]
          rfl
        · exact ih _ hm

theorem transmit_stage_no_engine_call {S : Type} (start_tx_ok : Bool) (config : Config)
    (tx_buffer : List S) (nsamples : Nat) (es : List TxEvent) (c : Call S P)
    (hm : c ∈ (transmit_stage start_tx_ok config tx_buffer nsamples es :
      Outcome S P Bool).trace) :
    c.is_engine = false := by
  cases start_tx_ok with
  | false =>
    rw [transmit_stage_start_failed] at hm
    simp at hm
    rw [hm]
    rfl
  | true =>
    rcases Bool.eq_false_or_eq_true config.attack.continuous_tx with hcont | hcont
    · rcases hloop : (tx_loop tx_buffer nsamples { tx_count := 0, consecutive_errors := 0 } es :
        List (Call S P) × TxExit) with ⟨calls, ex⟩
      have hno := tx_loop_no_engine_call (P := P) tx_buffer nsamples es
        { tx_count := 0, consecutive_errors := 0 } c
      rw [hloop] at hno
      cases ex with
      | running s₁ =>
        rw [transmit_stage_running config _ _ es calls s₁ hcont hloop] at hm
        simp at hm
        rcases hm with rfl | hm
        · rfl
        · exact hno hm
      | cancelled s₁ =>
        rw [transmit_stage_cancelled config _ _ es calls s₁ hcont hloop] at hm
        simp at hm
        rcases hm with rfl | hm | rfl
        · rfl
        · exact hno hm
        · rfl
      | aborted s₁ =>
        rw [transmit_stage_aborted config _ _ es calls s₁ hcont hloop] at hm
        simp at hm
        rcases hm with rfl | hm | rfl
        · rfl
        · exact hno hm
        · rfl
    · cases es with
      | nil =>
        simp [transmit_stage, hcont] at hm
        rw [hm]
        rfl
      | cons e es =>
        by_cases hn : e.nsent < 0
        · rw [transmit_stage_single_failed config _ _ e es hcont hn] at hm
          simp at hm
          rcases hm with rfl | rfl <;> rfl
        · rw [transmit_stage_single_sent config _ _ e es hcont (not_lt.mp hn)] at hm
          simp at hm
          rcases hm with rfl | rfl | rfl <;> rfl

end OriginalFieldClaims

section OriginalFieldTheorem

variable {F : Type} [Zero F] {P : Type}

/-- C8: whatever the tamper step does to the copied message and whatever boolean it returns,
`transmit_spoofed_ssb` begins with the tamper step on the original message and then calls the
encoder with the tampered copy, the block index and the frame-timing bit of the original
detection result; every encoder call has these arguments; every synthesis call has the
original cell identity, the original block index and the message the encoder returned, and
is made whenever encoding succeeds; and the function does the same whichever boolean the
tamper step returns. -/
theorem transmit_uses_original_fields (ops : FloatArith F) (start_tx_ok : Bool)
    (ssb_proc : SsbProcessor (F × F) P) (config : Config) (original_ssb : SsbSearchResult)
    (events : List TxEvent) :
    (∃ rest,
      (transmit_spoofed_ssb ops start_tx_ok ssb_proc config original_ssb events).trace =
        .modify_mib original_ssb.mib ::
        .encode_mib (ssb_proc.modify_mib original_ssb.mib config.attack).1
          original_ssb.ssb_idx original_ssb.mib.hrf :: rest) ∧
    (∀ mib ssb_idx hrf,
      Call.encode_mib mib ssb_idx hrf ∈
          (transmit_spoofed_ssb ops start_tx_ok ssb_proc config original_ssb events).trace →
        mib = (ssb_proc.modify_mib original_ssb.mib config.attack).1 ∧
        ssb_idx = original_ssb.ssb_idx ∧ hrf = original_ssb.mib.hrf) ∧
    (∀ pci msg ssb_idx,
      Call.generate_ssb pci msg ssb_idx ∈
          (transmit_spoofed_ssb ops start_tx_ok ssb_proc config original_ssb events).trace →
        pci = original_ssb.pci ∧ ssb_idx = original_ssb.ssb_idx ∧
        ssb_proc.encode_mib (ssb_proc.modify_mib original_ssb.mib config.attack).1
          original_ssb.ssb_idx original_ssb.mib.hrf = some msg) ∧
    (∀ msg,
      ssb_proc.encode_mib (ssb_proc.modify_mib original_ssb.mib config.attack).1
          original_ssb.ssb_idx original_ssb.mib.hrf = some msg →
        Call.generate_ssb original_ssb.pci msg original_ssb.ssb_idx ∈
          (transmit_spoofed_ssb ops start_tx_ok ssb_proc config original_ssb events).trace) ∧
    (∀ modified : Bool,
      transmit_spoofed_ssb ops start_tx_ok
          { ssb_proc with
            modify_mib := fun mib attack => ((ssb_proc.modify_mib mib attack).1, modified) }
          config original_ssb events =
        transmit_spoofed_ssb ops start_tx_ok ssb_proc config original_ssb events) := by
  have hstage : ∀ (buf : List (F × F)) (n : Nat) (c : Call (F × F) P),
      c ∈ (transmit_stage start_tx_ok config buf n events : Outcome (F × F) P Bool).trace →
        c.is_engine = false :=
    fun buf n c => transmit_stage_no_engine_call start_tx_ok config buf n events c
  refine ⟨?_, ?_, ?_, ?_, fun _ => rfl⟩
  · rcases transmit_spoofed_ssb_cases ops start_tx_ok ssb_proc config original_ssb events with
      ⟨_, h⟩ | ⟨msg, _, _, h⟩ | ⟨msg, _, _, h⟩
    · exact ⟨[], by rw [h]; rfl⟩
    · exact ⟨_, by rw [h]; rfl⟩
    · exact ⟨_, by rw [h]; rfl⟩
  · intro mib idx hrf hm
    rcases transmit_spoofed_ssb_cases ops start_tx_ok ssb_proc config original_ssb events with
      ⟨_, h⟩ | ⟨msg, _, _, h⟩ | ⟨msg, _, _, h⟩
    · rw [h] at hm
      simp at hm
      exact hm
    · rw [h] at hm
      simp [generation_calls] at hm
      exact hm
    · rw [h] at hm
      rcases List.mem_append.mp hm with hm | hm
      · simp [generation_calls] at hm
        exact hm
      · have := hstage _ _ _ hm
        cases this
  · intro pci msg' idx hm
    rcases transmit_spoofed_ssb_cases ops start_tx_ok ssb_proc config original_ssb events with
      ⟨_, h⟩ | ⟨msg, henc, _, h⟩ | ⟨msg, henc, _, h⟩
    · rw [h] at hm
      simp at hm
    · rw [h] at hm
      simp [generation_calls] at hm
      rcases hm with ⟨hp, hmsg, hi⟩
      exact ⟨hp, hi, by rw [hmsg]; exact henc⟩
    · rw [h] at hm
      rcases List.mem_append.mp hm with hm | hm
      · simp [generation_calls] at hm
        rcases hm with ⟨hp, hmsg, hi⟩
        exact ⟨hp, hi, by rw [hmsg]; exact henc⟩
      · have := hstage _ _ _ hm
        cases this
  · intro msg' henc'
    rcases transmit_spoofed_ssb_cases ops start_tx_ok ssb_proc config original_ssb events with
      ⟨hnone, _⟩ | ⟨msg, henc, _, h⟩ | ⟨msg, henc, _, h⟩
    · unfold tampered_mib at hnone
      rw [hnone] at henc'
      cases henc'
    · unfold tampered_mib at henc
      rw [henc] at henc'
      cases henc'
      rw [h]
      simp [generation_calls]
    · unfold tampered_mib at henc
      rw [henc] at henc'
      cases henc'
      rw [h]
      simp [generation_calls]

/-- Witness of C8: the tamper step clears the frame-timing bit of the copy; the encoder is
still called with the frame-timing bit of the original result, which is set. -/
theorem transmit_uses_original_fields_witness :
    ((demo_proc true).modify_mib (demo_result true).mib (demo_config false).attack).1.hrf =
      false ∧
    Call.generate_ssb (demo_result true).pci () (demo_result true).ssb_idx ∈
      (transmit_spoofed_ssb demo_arith true (demo_proc true) (demo_config false)
        (demo_result true) [{ running := true, nsent := 2 }]).trace ∧
    ∃ rest,
      (transmit_spoofed_ssb demo_arith true (demo_proc true) (demo_config false)
        (demo_result true) [{ running := true, nsent := 2 }]).trace =
        .modify_mib demo_mib :: .encode_mib { demo_mib with hrf := false } 2 true :: rest :=
  ⟨rfl,
    (transmit_uses_original_fields demo_arith true (demo_proc true) (demo_config false)
      (demo_result true) [{ running := true, nsent := 2 }]).2.2.2.1 () rfl,
    (transmit_uses_original_fields demo_arith true (demo_proc true) (demo_config false)
      (demo_result true) [{ running := true, nsent := 2 }]).1⟩

end OriginalFieldTheorem

/-! ## C3: cancellation -/

section CancellationClaims

variable {F : Type} [Zero F] {P : Type}

/-- A continuous-mode call of `transmit_spoofed_ssb` that has not returned is inside its
loop. -/
theorem transmit_spoofed_ssb_in_loop (ops : FloatArith F) (start_tx_ok : Bool)
    (ssb_proc : SsbProcessor (F × F) P) (config : Config) (original_ssb : SsbSearchResult)
    (events : List TxEvent) (hcont : config.attack.continuous_tx = true)
    (h : (transmit_spoofed_ssb ops start_tx_ok ssb_proc config original_ssb events).ret =
      none) :
    ∃ msg, ssb_proc.encode_mib (tampered_mib ssb_proc config original_ssb)
        original_ssb.ssb_idx original_ssb.mib.hrf = some msg ∧
      (generated ssb_proc original_ssb msg).2 ≠ 0 ∧ start_tx_ok = true ∧
      ∃ (calls : List (Call (F × F) P)) (s : TxState),
        tx_loop (normalize_amplitude ops (generated ssb_proc original_ssb msg).1
            (generated ssb_proc original_ssb msg).2)
          (generated ssb_proc original_ssb msg).2 { tx_count := 0, consecutive_errors := 0 }
          events = (calls, .running s) := by
  rcases transmit_spoofed_ssb_cases ops start_tx_ok ssb_proc config original_ssb events with
    ⟨_, h'⟩ | ⟨msg, _, _, h'⟩ | ⟨msg, henc, hgen, h'⟩
  · rw [h'] at h
    cases h
  · rw [h'] at h
    cases h
  · rw [h'] at h
    refine ⟨msg, henc, hgen, ?_⟩
    cases start_tx_ok with
    | false =>
      rw [transmit_stage_start_failed] at h
      cases h
    | true =>
      refine ⟨rfl, ?_⟩
      rcases hloop : (tx_loop (normalize_amplitude ops (generated ssb_proc original_ssb msg).1
          (generated ssb_proc original_ssb msg).2) (generated ssb_proc original_ssb msg).2
          { tx_count := 0, consecutive_errors := 0 } events : List (Call (F × F) P) × TxExit)
        with ⟨c, ex⟩
      cases ex with
      | running s₁ => exact ⟨c, s₁, rfl⟩
      | cancelled s₁ =>
        rw [transmit_stage_cancelled config _ _ events c s₁ hcont hloop] at h
        cases h
      | aborted s₁ =>
        rw [transmit_stage_aborted config _ _ events c s₁ hcont hloop] at h
        cases h

/-- C3 refuted as stated: the scan loop observes the cancellation flag at its first check,
before any detection, and `main` returns the failure status 1. -/
theorem scan_cancellation_fails_run :
    (demo_event false 0 0).running = false ∧
    (scan_for_ssb true (demo_proc true) (demo_config true) 3 4 (demo_result false)
      [demo_event false 0 0]).ret = some (false, demo_result false) ∧
    (main demo_arith (demo_proc true) (demo_env [demo_event false 0 0] [] true)).ret =
      some 1 := by
  refine ⟨rfl, by rfl, by rfl⟩

/-- C3 amended: when the scan loop, before any detection, observes the cancellation flag,
the only further call of `scan_for_ssb` is `stop_rx` and it returns not-found, and `main`
makes no further call (no transmission is started) and returns the failure status 1, the
same outcome as when the elapsed time exceeds the scan budget at that iteration; when the
continuous-transmit loop observes the cancellation flag, the only further call of
`transmit_spoofed_ssb` is `stop_tx` and it returns `true`, and `main` makes no further call
and returns 0. -/
theorem cancellation_outcome (ops : FloatArith F) (ssb_proc : SsbProcessor (F × F) P)
    (env : MainEnv F) (config : Config)
    (hcfg : env.config = some config) (hrf : env.rf_init_ok = true)
    (hssb : env.ssb_init_ok = true) (hrx : env.start_rx_ok = true) :
    (∀ pre e post, env.scan_events = pre ++ e :: post →
      (e.running = false ∨ e.elapsed_sec > config.operation.scan_duration_sec) →
      (scan_for_ssb true ssb_proc config env.samples_per_iter env.search_buffer_size
        env.ssb_result pre).ret = none →
      (scan_for_ssb true ssb_proc config env.samples_per_iter env.search_buffer_size
          env.ssb_result env.scan_events).trace =
        (scan_for_ssb true ssb_proc config env.samples_per_iter env.search_buffer_size
          env.ssb_result pre).trace ++ [.stop_rx] ∧
      (∃ r, (scan_for_ssb true ssb_proc config env.samples_per_iter env.search_buffer_size
        env.ssb_result env.scan_events).ret = some (false, r)) ∧
      main ops ssb_proc env =
        { trace := [.rf_init, .ssb_init] ++
            ((scan_for_ssb true ssb_proc config env.samples_per_iter env.search_buffer_size
              env.ssb_result pre).trace ++ [.stop_rx]),
          ret := some 1 }) ∧
    (∀ original_ssb pre e post,
      (scan_for_ssb true ssb_proc config env.samples_per_iter env.search_buffer_size
        env.ssb_result env.scan_events).ret = some (true, original_ssb) →
      config.attack.continuous_tx = true →
      env.tx_events = pre ++ e :: post → e.running = false →
      (transmit_spoofed_ssb ops env.start_tx_ok ssb_proc config original_ssb pre).ret = none →
      (transmit_spoofed_ssb ops env.start_tx_ok ssb_proc config original_ssb
          env.tx_events).trace =
        (transmit_spoofed_ssb ops env.start_tx_ok ssb_proc config original_ssb pre).trace ++
          [.stop_tx] ∧
      (transmit_spoofed_ssb ops env.start_tx_ok ssb_proc config original_ssb
        env.tx_events).ret = some true ∧
      main ops ssb_proc env =
        { trace := [.rf_init, .ssb_init] ++
            (scan_for_ssb true ssb_proc config env.samples_per_iter env.search_buffer_size
              env.ssb_result env.scan_events).trace ++
            ((transmit_spoofed_ssb ops env.start_tx_ok ssb_proc config original_ssb
              pre).trace ++ [.stop_tx]),
          ret := some 0 }) := by
  constructor
  · intro pre e post hev hstop hpre
    have hfacts := scan_for_ssb_stop_event ssb_proc config env.samples_per_iter
      env.search_buffer_size env.ssb_result env.scan_events pre e post hev hstop hpre
    refine ⟨hfacts.1, hfacts.2, ?_⟩
    rcases hfacts.2 with ⟨r, hr⟩
    rw [← hfacts.1]
    simp [main, hcfg, hrf, hssb, hrx, hr]
  · intro original_ssb pre e post hscan hcont hev hcancel hpre
    rcases transmit_spoofed_ssb_in_loop ops env.start_tx_ok ssb_proc config original_ssb pre
      hcont hpre with ⟨msg, henc, hgen, htx, c, s, hloop⟩
    have hall : tx_loop (normalize_amplitude ops (generated ssb_proc original_ssb msg).1
          (generated ssb_proc original_ssb msg).2)
        (generated ssb_proc original_ssb msg).2 { tx_count := 0, consecutive_errors := 0 }
        env.tx_events = ((c ++ [] : List (Call (F × F) P)), .cancelled s) := by
      rw [hev, tx_loop_append_running _ _ pre (e :: post) _ s c hloop,
        tx_loop_cons_cancelled _ _ s e post [] (tx_iter_cancelled _ _ s e hcancel)]
    have hstage := transmit_stage_cancelled config _ _ env.tx_events _ s hcont hall
    have hstage_pre := transmit_stage_running config
      (normalize_amplitude ops (generated ssb_proc original_ssb msg).1
        (generated ssb_proc original_ssb msg).2)
      (generated ssb_proc original_ssb msg).2 pre c s hcont hloop
    have hfun := transmit_spoofed_ssb_stage ops env.start_tx_ok ssb_proc config original_ssb
      env.tx_events msg henc hgen
    have hfun_pre := transmit_spoofed_ssb_stage ops env.start_tx_ok ssb_proc config
      original_ssb pre msg henc hgen
    rw [htx, hstage] at hfun
    rw [htx, hstage_pre] at hfun_pre
    have hret : (transmit_spoofed_ssb ops env.start_tx_ok ssb_proc config original_ssb
        env.tx_events).ret = some true := by rw [htx, hfun]
    have htrace : (transmit_spoofed_ssb ops env.start_tx_ok ssb_proc config original_ssb
          env.tx_events).trace =
        (transmit_spoofed_ssb ops env.start_tx_ok ssb_proc config original_ssb pre).trace ++
          [.stop_tx] := by
      rw [htx, hfun, hfun_pre]
      simp
    refine ⟨htrace, hret, ?_⟩
    rw [← htrace]
    simp [main, hcfg, hrf, hssb, hrx, hscan, hret]

/-- Witness of the amended C3: in one run the cancellation flag is observed by the scan loop
after a first chunk; in another, after a detection at the second chunk and one transmitted
burst, it is observed by the continuous-transmit loop. -/
theorem cancellation_outcome_witness :
    main demo_arith (demo_proc true)
        (demo_env [demo_event true 0 3, demo_event false 0 0] [] true) =
      { trace := [.rf_init, .ssb_init] ++
          ((scan_for_ssb true (demo_proc true) (demo_config true) 3 4 (demo_result false)
            [demo_event true 0 3]).trace ++ [.stop_rx]),
        ret := some 1 } ∧
    (scan_for_ssb true (demo_proc true) (demo_config true) 3 4 (demo_result false)
        [demo_event true 0 3]).trace = scan_prologue 3 ++ [.receive 3] ∧
    main demo_arith (demo_proc true)
        (demo_env [demo_event true 0 3, demo_event true 0 3]
          [{ running := true, nsent := 2 }, { running := false, nsent := 0 }] true) =
      { trace := [.rf_init, .ssb_init] ++
          (scan_for_ssb true (demo_proc true) (demo_config true) 3 4 (demo_result false)
            [demo_event true 0 3, demo_event true 0 3]).trace ++
          ((transmit_spoofed_ssb demo_arith true (demo_proc true) (demo_config true)
            (demo_result true) [{ running := true, nsent := 2 }]).trace ++ [.stop_tx]),
        ret := some 0 } :=
  ⟨((cancellation_outcome demo_arith (demo_proc true)
      (demo_env [demo_event true 0 3, demo_event false 0 0] [] true)
      (demo_config true) rfl rfl rfl rfl).1
      [demo_event true 0 3] (demo_event false 0 0) [] rfl (Or.inl rfl) (by rfl)).2.2,
    by rfl,
    ((cancellation_outcome demo_arith (demo_proc true)
      (demo_env [demo_event true 0 3, demo_event true 0 3]
        [{ running := true, nsent := 2 }, { running := false, nsent := 0 }] true)
      (demo_config true) rfl rfl rfl rfl).2 (demo_result true)
      [{ running := true, nsent := 2 }] { running := false, nsent := 0 } []
      (by rfl) rfl rfl rfl (by rfl)).2.2⟩

end CancellationClaims

/-! ## C11: the flags of the continuous-mode transmit calls -/

section TransmitFlagClaims

variable {S P : Type} (tx_buffer : List S) (nsamples : Nat)

/-- Every transmit call of the loop carries the loop's buffer and sample count and is not
flagged as stream-end. -/
theorem tx_loop_transmit_args (es : List TxEvent) (s : TxState) (buffer : List S) (n : Nat)
    (is_start is_end : Bool)
    (hm : Call.transmit buffer n is_start is_end ∈
      (tx_loop tx_buffer nsamples s es : List (Call S P) × TxExit).1) :
    buffer = tx_buffer ∧ n = nsamples ∧ is_end = false := by
  induction es generalizing s with
  | nil =>
    rw [tx_loop_nil] at hm
    cases hm
  | cons e es ih =>
    by_cases hr : e.running = false
    · rw [tx_loop_cons_cancelled _ _ s e es _ (tx_iter_cancelled _ _ s e hr)] at hm
      cases hm
    · have hr' : e.running = true := by simpa using hr
      by_cases hn : e.nsent < 0
      · by_cases hc : s.consecutive_errors + 1 < max_consecutive_errors
        · rw [tx_loop_cons_next _ _ s _ e es _ (tx_iter_backoff _ _ s e hr' hn hc)] at hm
          rcases List.mem_append.mp hm with hm | hm
          · simp at hm
            exact ⟨hm.1, hm.2.1, hm.2.2.2⟩
          · exact ih _ hm
        · rw [tx_loop_cons_aborted _ _ s e es _
            (tx_iter_aborted _ _ s e hr' hn (not_lt.mp hc))] at hm
          simp at hm
          exact ⟨hm.1, hm.2.1, hm.2.2.2⟩
      · rw [tx_loop_cons_next _ _ s _ e es _ (tx_iter_sent _ _ s e hr' (not_lt.mp hn))] at hm
        rcases List.mem_append.mp hm with hm | hm
        · simp at hm
          exact ⟨hm.1, hm.2.1, hm.2.2.2⟩
        · exact ih _ hm

theorem int_incr_of_lt {n : Int} (h0 : 0 ≤ n) (h1 : n < INT_MAX) : int_incr n = n + 1 := by
  unfold int_incr
  have hmin : INT_MIN = -2147483648 := by decide
  have hmax : INT_MAX = 2147483647 := by decide
  have hrange : (UINT32_RANGE : Int) = 4294967296 := by decide
  rw [hmin, hrange]
  rw [hmax] at h1
  rw [Int.emod_eq_of_lt (by omega) (by omega)]
  omega

/-- While the `int` counter has not overflowed, at a loop head it is the start value plus the
number of successful transmit calls since. -/
theorem tx_loop_tx_count (es : List TxEvent) (s s' : TxState) (calls : List (Call S P))
    (h : tx_loop tx_buffer nsamples s es = (calls, .running s')) (h0 : 0 ≤ s.tx_count)
    (hb : s.tx_count + (es.countP (fun e => decide (0 ≤ e.nsent)) : Int) ≤ INT_MAX) :
    s'.tx_count = s.tx_count + (es.countP (fun e => decide (0 ≤ e.nsent)) : Int) := by
  induction es generalizing s calls with
  | nil =>
    rw [tx_loop_nil] at h
    cases h
    simp
  | cons e es ih =>
    by_cases hr : e.running = false
    · rw [tx_loop_cons_cancelled _ _ s e es _ (tx_iter_cancelled _ _ s e hr)] at h
      cases h
    · have hr' : e.running = true := by simpa using hr
      by_cases hn : e.nsent < 0
      · have hp : decide (0 ≤ e.nsent) = false := decide_eq_false (not_le.mpr hn)
        rw [List.countP_cons_of_neg _ _ (by rw [hp]; exact Bool.false_ne_true)] at hb ⊢
        by_cases hc : s.consecutive_errors + 1 < max_consecutive_errors
        · rw [tx_loop_cons_next _ _ s _ e es _ (tx_iter_backoff _ _ s e hr' hn hc)] at h
          rcases hrest : (tx_loop tx_buffer nsamples
            { s with consecutive_errors := s.consecutive_errors + 1 } es :
            List (Call S P) × TxExit) with ⟨c', ex⟩
          rw [hrest] at h
          cases h
          exact ih { s with consecutive_errors := s.consecutive_errors + 1 } c' hrest h0 hb
        · rw [tx_loop_cons_aborted _ _ s e es _
            (tx_iter_aborted _ _ s e hr' hn (not_lt.mp hc))] at h
          cases h
      · have hcons : (e :: es).countP (fun e => decide (0 ≤ e.nsent)) =
            es.countP (fun e => decide (0 ≤ e.nsent)) + 1 := by
          rw [List.countP_cons]
          simp [not_lt.mp hn]
        rw [hcons] at hb ⊢
        rw [tx_loop_cons_next _ _ s _ e es _ (tx_iter_sent _ _ s e hr' (not_lt.mp hn))] at h
        rcases hrest : (tx_loop tx_buffer nsamples
          { tx_count := int_incr s.tx_count, consecutive_errors := 0 } es :
          List (Call S P) × TxExit) with ⟨c', ex⟩
        rw [hrest] at h
        cases h
        push_cast at hb ⊢
        have hlt : s.tx_count < INT_MAX := by
          have : (0 : Int) ≤ (es.countP (fun e => decide (0 ≤ e.nsent)) : Int) :=
            Int.ofNat_nonneg _
          omega
        have hinc := int_incr_of_lt h0 hlt
        have := ih { tx_count := int_incr s.tx_count, consecutive_errors := 0 } c' hrest
          (by show 0 ≤ int_incr s.tx_count; rw [hinc]; omega)
          (by show int_incr s.tx_count + _ ≤ INT_MAX; rw [hinc]; omega)
        rw [this]
        show int_incr s.tx_count + _ = _
        rw [hinc]
        omega

/-- While fewer than `2 ^ 31` transmit calls have succeeded, the burst counter at a loop head
is zero exactly when every transmit call so far has failed. -/
theorem tx_loop_start_flag (es : List TxEvent) (s' : TxState) (calls : List (Call S P))
    (h : tx_loop tx_buffer nsamples { tx_count := 0, consecutive_errors := 0 } es =
      (calls, .running s'))
    (hb : (es.countP (fun e => decide (0 ≤ e.nsent)) : Int) ≤ INT_MAX) :
    (s'.tx_count == 0) = es.all (fun e => decide (e.nsent < 0)) := by
  have hcount := tx_loop_tx_count tx_buffer nsamples es _ s' calls h (le_refl _)
    (by show (0 : Int) + _ ≤ INT_MAX; rw [zero_add]; exact hb)
  have hcount' : s'.tx_count = (es.countP (fun e => decide (0 ≤ e.nsent)) : Int) := by
    rw [hcount]
    show (0 : Int) + _ = _
    rw [zero_add]
  rw [Bool.eq_iff_iff, beq_iff_eq, List.all_eq_true, hcount']
  constructor
  · intro hz e he
    have hz' : es.countP (fun e => decide (0 ≤ e.nsent)) = 0 := by exact_mod_cast hz
    have := (List.countP_eq_zero.mp hz') e he
    simpa using this
  · intro hall
    have : es.countP (fun e => decide (0 ≤ e.nsent)) = 0 := by
      rw [List.countP_eq_zero]
      intro e he
      have := hall e he
      simpa using this
    rw [this]
    rfl

/-- An iteration whose loop condition holds begins with a transmit call of the loop's buffer
and sample count, flagged as stream-start exactly when the burst counter is zero. -/
theorem tx_iter_first_call (s : TxState) (e : TxEvent) (hr : e.running = true) :
    ∃ rest : List (Call S P),
      (tx_iter tx_buffer nsamples s e : List (Call S P) × TxStep).1 =
        .transmit tx_buffer nsamples (s.tx_count == 0) false :: rest := by
  by_cases hn : e.nsent < 0
  · by_cases hc : s.consecutive_errors + 1 < max_consecutive_errors
    · exact ⟨_, by rw [tx_iter_backoff _ _ s e hr hn hc]⟩
    · exact ⟨_, by rw [tx_iter_aborted _ _ s e hr hn (not_lt.mp hc)]⟩
  · exact ⟨_, by rw [tx_iter_sent _ _ s e hr (not_lt.mp hn)]⟩

/-- C11 refuted as stated: in continuous mode, when the first transmit call fails and the
second succeeds, the second call is flagged as stream-start as well. -/
theorem retry_after_failure_flagged_stream_start :
    ((tx_loop [(1 : Nat), 2] 2 { tx_count := 0, consecutive_errors := 0 }
        (uncancelled [-1, 5]) : List (Call Nat Unit) × TxExit).1 =
      [.transmit [1, 2] 2 true false, .sleep_ms 100, .transmit [1, 2] 2 true false]) ∧
    ((transmit_stage true (demo_config true) [(1 : Nat), 2] 2 (uncancelled [-1, 5]) :
        Outcome Nat Unit Bool).trace =
      [.start_tx, .transmit [1, 2] 2 true false, .sleep_ms 100,
        .transmit [1, 2] 2 true false]) := by
  refine ⟨by rfl, by rfl⟩

/-- C11 amended: in continuous mode, for every sequence of loop events, every transmit call
carries the same waveform buffer and the same sample count and is not flagged as stream-end;
the first transmit call is flagged as stream-start; and, while fewer than `2 ^ 31` transmit
calls have succeeded (the `int` burst counter has not overflowed), a later transmit call is
flagged as stream-start exactly when every transmit call before it failed. -/
theorem continuous_transmit_call_flags (events : List TxEvent) :
    (∀ buffer n is_start is_end,
      Call.transmit buffer n is_start is_end ∈
          (tx_loop tx_buffer nsamples { tx_count := 0, consecutive_errors := 0 } events :
            List (Call S P) × TxExit).1 →
        buffer = tx_buffer ∧ n = nsamples ∧ is_end = false) ∧
    (∀ e post, events = e :: post → e.running = true →
      ∃ rest : List (Call S P),
        (tx_loop tx_buffer nsamples { tx_count := 0, consecutive_errors := 0 } events :
          List (Call S P) × TxExit).1 = .transmit tx_buffer nsamples true false :: rest) ∧
    (∀ pre e post (calls : List (Call S P)) (s : TxState), events = pre ++ e :: post →
      tx_loop tx_buffer nsamples { tx_count := 0, consecutive_errors := 0 } pre =
        (calls, .running s) →
      e.running = true →
      (pre.countP (fun x => decide (0 ≤ x.nsent)) : Int) ≤ INT_MAX →
      ∃ rest : List (Call S P),
        (tx_iter tx_buffer nsamples s e : List (Call S P) × TxStep).1 =
          .transmit tx_buffer nsamples (pre.all (fun x => decide (x.nsent < 0))) false ::
            rest) := by
  refine ⟨?_, ?_, ?_⟩
  · intro buffer n is_start is_end hm
    exact tx_loop_transmit_args tx_buffer nsamples events _ buffer n is_start is_end hm
  · intro e post hev hr
    rcases tx_iter_first_call (P := P) tx_buffer nsamples
      { tx_count := 0, consecutive_errors := 0 } e hr with ⟨rest, hfirst⟩
    rw [hev]
    rcases hit : (tx_iter tx_buffer nsamples { tx_count := 0, consecutive_errors := 0 } e :
      List (Call S P) × TxStep) with ⟨c, step⟩
    rw [hit] at hfirst
    simp only at hfirst
    cases step with
    | next s₁ =>
      rw [tx_loop_cons_next _ _ _ s₁ e post c hit, hfirst]
      exact ⟨_, rfl⟩
    | cancelled =>
      rw [tx_loop_cons_cancelled _ _ _ e post c hit, hfirst]
      exact ⟨_, rfl⟩
    | aborted =>
      rw [tx_loop_cons_aborted _ _ _ e post c hit, hfirst]
      exact ⟨_, rfl⟩
  · intro pre e post calls s _ hloop hr hb
    rcases tx_iter_first_call (P := P) tx_buffer nsamples s e hr with ⟨rest, hfirst⟩
    have hflag := tx_loop_start_flag tx_buffer nsamples pre s calls hloop hb
    rw [hflag] at hfirst
    exact ⟨rest, hfirst⟩

/-- Witness of the amended C11: after one failure and one success the third transmit call is
not flagged as stream-start. -/
theorem continuous_transmit_call_flags_witness :
    (tx_loop [(1 : Nat), 2] 2 { tx_count := 0, consecutive_errors := 0 }
        (uncancelled [-1, 5]) : List (Call Nat Unit) × TxExit) =
      ([.transmit [1, 2] 2 true false, .sleep_ms 100, .transmit [1, 2] 2 true false],
        .running { tx_count := 1, consecutive_errors := 0 }) ∧
    (uncancelled [-1, 5]).all (fun x => decide (x.nsent < 0)) = false ∧
    ∃ rest : List (Call Nat Unit),
      (tx_iter [(1 : Nat), 2] 2 { tx_count := 1, consecutive_errors := 0 }
        { running := true, nsent := 7 } : List (Call Nat Unit) × TxStep).1 =
        .transmit [1, 2] 2 ((uncancelled [-1, 5]).all (fun x => decide (x.nsent < 0))) false ::
          rest := by
  have hloop : (tx_loop [(1 : Nat), 2] 2 { tx_count := 0, consecutive_errors := 0 }
      (uncancelled [-1, 5]) : List (Call Nat Unit) × TxExit) =
      ([.transmit [1, 2] 2 true false, .sleep_ms 100, .transmit [1, 2] 2 true false],
        .running { tx_count := 1, consecutive_errors := 0 }) := by
    rfl
  exact ⟨hloop, by decide,
    (continuous_transmit_call_flags (P := Unit) [(1 : Nat), 2] 2
      (uncancelled [-1, 5] ++ { running := true, nsent := 7 } :: [])).2.2
      (uncancelled [-1, 5]) { running := true, nsent := 7 } [] _ _ rfl hloop rfl (by decide)⟩

end TransmitFlagClaims

/-! ## C6: amplitude normalization -/

section AmplitudeLemmas

variable {F : Type}

end AmplitudeLemmas

/-! ## C6: amplitude normalization -/

section AmplitudeClaims

variable {F : Type} [Zero F]

end AmplitudeClaims

end SsbSpoofer
